import Mathlib

/-!
Verification of the attendance backend (`app.js`) of the
FaceRecognitionBasedAttendanceSystem repository.

The backend persists three kinds of flat CSV files: a student roster
(`students_data.csv`, columns `name, roll, descriptors`), a subject registry
(`subjects_data.csv`, column `subject`) and one attendance sheet per subject
(`<subject>_attendance.csv`).  Files are read with `csv-parser` (each data row
becomes a record object keyed by the header row) and written with
`csv-stringify` with `header: true` (the columns are the keys of the FIRST
record; keys of later records that are not columns are dropped, and missing
values render as the empty string).

The shallow embedding models
  * a parsed CSV record as an association list `Rcd` (JS object with string
    values; key order is insertion order),
  * a CSV file on disk as a `Grid` (header row plus data rows),
  * the data directory as the state `FS`,
and each route handler of `app.js` as a function on `FS`.
-/

namespace App

/-- A parsed CSV record: an ordered association list of field/value pairs,
modelling a JS object produced by `csv-parser` (or built by the handlers). -/
abbrev Rcd := List (String × String)

/-- `r[k]` in JS: the value of the first binding of `k`, `none` = `undefined`. -/
def recGet : Rcd → String → Option String
  | [], _ => none
  | (k', v) :: rest, k => if k' = k then some v else recGet rest k

/-- Reading a field where JS coerces `undefined` to the empty string
(`csv-stringify` renders a missing/undefined field as an empty cell). -/
def recGetD (r : Rcd) (k : String) : String := (recGet r k).getD ""

/-- `r[k] = v` in JS: replace the first binding of `k` in place, otherwise
append the new key at the end (JS object key insertion order). -/
def recSet : Rcd → String → String → Rcd
  | [], k, v => [(k, v)]
  | (k', v') :: rest, k, v =>
      if k' = k then (k, v) :: rest else (k', v') :: recSet rest k v

/-- `Array.prototype.findIndex` returning `none` instead of `-1`. -/
def findIdxO (p : α → Bool) : List α → Option Nat
  | [] => none
  | x :: xs => if p x then some 0 else (findIdxO p xs).map (· + 1)

/-- `Array.prototype.find` returning `none` instead of `undefined`. -/
def findO (p : α → Bool) : List α → Option α
  | [] => none
  | x :: xs => if p x then some x else findO p xs

/-- A CSV file as stored on disk: the header row (`cols`) and the data rows.
The bytes of the file are a fixed deterministic rendering of this value
(`csv-stringify` output), so two sheets are byte-for-byte identical iff their
`Grid`s are equal. -/
structure Grid where
  cols : List String
  rows : List (List String)
deriving DecidableEq

/-- `readCSV` (app.js lines 37-50) applied to an optional file:
a missing file resolves to `[]`; otherwise `csv-parser` pairs the header
with each data row. -/
def readGrid : Option Grid → List Rcd
  | none => []
  | some g => g.rows.map (fun row => g.cols.zip row)

/-- `writeCSV` (app.js lines 53-56): `csv-stringify` with `header: true`
infers the columns from the keys of the first record; every record is
rendered by those columns, missing fields as empty cells, extra keys
dropped.  An empty record list renders as an empty file. -/
def writeGrid (recs : List Rcd) : Grid :=
  match recs with
  | [] => ⟨[], []⟩
  | r0 :: _ =>
      ⟨r0.map Prod.fst, recs.map (fun r => (r0.map Prod.fst).map (fun c => recGetD r c))⟩

/-- The attendance directory: an association list of file name → file. -/
abbrev AttDir := List (String × Grid)

/-- `fs.existsSync` + read: the file stored under name `f`, if any. -/
def dirGet : AttDir → String → Option Grid
  | [], _ => none
  | p :: rest, f => if p.1 = f then some p.2 else dirGet rest f

/-- Writing the file named `f` (overwrite if present, create otherwise). -/
def dirSet : AttDir → String → Grid → AttDir
  | [], f, g => [(f, g)]
  | p :: rest, f, g => if p.1 = f then (f, g) :: rest else p :: dirSet rest f g

/-- The data directory: the two fixed files plus the attendance directory.
`none` models a file that does not exist on disk. -/
structure FS where
  studentsFile : Option Grid
  subjectsFile : Option Grid
  attDir : AttDir
deriving DecidableEq

/-- `` `${subject}_attendance.csv` `` (app.js line 60). -/
def sheetFileName (subject : String) : String := subject ++ "_attendance.csv"

/-- JS template-literal stringification of a possibly-undefined field. -/
def jsStr : Option String → String
  | none => "undefined"
  | some s => s

/-- `getOrCreateAttendanceFile` (app.js lines 59-78): if the subject's sheet
file does not exist, create it with one `{name, roll}` record per current
roster entry; otherwise leave the directory untouched. -/
def getOrCreateAttendanceFile (fs : FS) (subject : String) : FS :=
  match dirGet fs.attDir (sheetFileName subject) with
  | some _ => fs
  | none =>
      let students := readGrid fs.studentsFile
      let attendanceData :=
        students.map (fun s => [("name", recGetD s "name"), ("roll", recGetD s "roll")])
      { fs with attDir := dirSet fs.attDir (sheetFileName subject) (writeGrid attendanceData) }

/-- The sheet `getOrCreateAttendanceFile` leaves under the subject's file
name: the existing grid if the file existed, else the freshly seeded one.
(Characterised by `dirGet_getOrCreate` below.) -/
def getOrCreateGrid (gOpt : Option Grid) (roster : List Rcd) : Grid :=
  match gOpt with
  | some g => g
  | none =>
      writeGrid (roster.map (fun s => [("name", recGetD s "name"), ("roll", recGetD s "roll")]))

/-- `attendanceData[studentIndex][date] = 'Present'` (app.js line 106):
update the record at index `i` in place. -/
def markAt : List Rcd → Nat → String → List Rcd
  | [], _, _ => []
  | r :: rest, 0, date => recSet r date "Present" :: rest
  | r :: rest, i + 1, date => r :: markAt rest i date

/-- Lines 83-110 of `app.js` acting on the resolved sheet grid `g` and the
roster: find the student's row by roll and mark the date column, else append
a `{name, roll, [date]: 'Present'}` row for a roster student, else fail.
Returns the grid written back and the thrown error message, if any. -/
def markSheet (g : Grid) (roster : List Rcd) (roll date : String) :
    Grid × Option String :=
  let attendanceData := readGrid (some g)
  match findIdxO (fun r => recGet r "roll" == some roll) attendanceData with
  | some i => (writeGrid (markAt attendanceData i date), none)
  | none =>
      match findO (fun s => recGet s "roll" == some roll) roster with
      | some student =>
          let newRecord :=
            recSet [("name", recGetD student "name"), ("roll", recGetD student "roll")]
              date "Present"
          (writeGrid (attendanceData ++ [newRecord]), none)
      | none => (g, some ("Student with roll " ++ roll ++ " not found"))

/-- `updateStudentAttendance` (app.js lines 81-111): ensure the sheet file
exists, then mark the student present on it; on the error path the sheet
created by `getOrCreateAttendanceFile` remains on disk.  The grid read back
at line 83 is exactly `getOrCreateGrid` of the pre-state (lemma
`dirGet_getOrCreate`). -/
def updateStudentAttendance (fs : FS) (subject roll date : String) :
    FS × Option String :=
  let fs1 := getOrCreateAttendanceFile fs subject
  let g := getOrCreateGrid (dirGet fs.attDir (sheetFileName subject)) (readGrid fs.studentsFile)
  match markSheet g (readGrid fs.studentsFile) roll date with
  | (g', none) => ({ fs1 with attDir := dirSet fs1.attDir (sheetFileName subject) g' }, none)
  | (_, some e) => (fs1, some e)

/-- `GET /api/students` (app.js lines 116-123). -/
def getStudents (fs : FS) : List Rcd × Nat :=
  (readGrid fs.studentsFile, 200)

/-- One iteration of the fan-out loop of `POST /api/students`
(app.js lines 148-160): ensure the subject's sheet exists and append a bare
`{name, roll}` row unless a row with that roll is already present. -/
def fanOutStep (fs : FS) (subjName name roll : String) : FS :=
  let fs1 := getOrCreateAttendanceFile fs subjName
  let f := sheetFileName subjName
  let attendanceData := readGrid (dirGet fs1.attDir f)
  if attendanceData.any (fun r => recGet r "roll" == some roll) then fs1
  else
    let g' := writeGrid (attendanceData ++ [[("name", name), ("roll", roll)]])
    { fs1 with attDir := dirSet fs1.attDir f g' }

/-- `POST /api/students` (app.js lines 126-168): upsert by roll; a brand-new
student additionally fans out into every registered subject's sheet (the
roster file is rewritten only after the loop, so sheet creation inside the
loop seeds from the old roster). Returns the new state and the HTTP status. -/
def postStudents (fs : FS) (name roll descriptors : String) : FS × Nat :=
  if name = "" ∨ roll = "" ∨ descriptors = "" then (fs, 400)
  else
    let students := readGrid fs.studentsFile
    match findIdxO (fun s => recGet s "roll" == some roll) students with
    | some existingIndex =>
        let students := students.set existingIndex
          [("name", name), ("roll", roll), ("descriptors", descriptors)]
        ({ fs with studentsFile := some (writeGrid students) }, 201)
    | none =>
        let students := students ++ [[("name", name), ("roll", roll), ("descriptors", descriptors)]]
        let subjects := readGrid fs.subjectsFile
        let fs1 := subjects.foldl
          (fun acc s => fanOutStep acc (jsStr (recGet s "subject")) name roll) fs
        ({ fs1 with studentsFile := some (writeGrid students) }, 201)

/-- The per-sheet body of the cascade loop of `DELETE /api/students/:roll`
(app.js lines 182-189): if the subject's sheet file exists, drop every row
whose roll equals the deleted one and rewrite it. -/
def deleteFromSheet (fs : FS) (subjName roll : String) : FS :=
  let f := sheetFileName subjName
  match dirGet fs.attDir f with
  | none => fs
  | some g =>
      let attendanceData := (readGrid (some g)).filter (fun r => !(recGet r "roll" == some roll))
      { fs with attDir := dirSet fs.attDir f (writeGrid attendanceData) }

/-- `DELETE /api/students/:roll` (app.js lines 171-195): filter the roster,
then cascade over every subject recorded in the registry file. -/
def deleteStudent (fs : FS) (roll : String) : FS × Nat :=
  let students := (readGrid fs.studentsFile).filter (fun s => !(recGet s "roll" == some roll))
  let fs1 := { fs with studentsFile := some (writeGrid students) }
  let subjects := readGrid fs1.subjectsFile
  let fs2 := subjects.foldl (fun acc s => deleteFromSheet acc (jsStr (recGet s "subject")) roll) fs1
  (fs2, 200)

/-- `String.prototype.endsWith`. -/
def strEndsWith (s suffix : String) : Bool :=
  suffix.data.isSuffixOf s.data

/-- Remove the first occurrence of `pat` from a character list
(`String.prototype.replace(pat, '')` with a string pattern replaces the
first occurrence only). -/
def removeFirstL (pat : List Char) : List Char → List Char
  | [] => []
  | c :: rest =>
      if pat.isPrefixOf (c :: rest) then (c :: rest).drop pat.length
      else c :: removeFirstL pat rest

/-- `file.replace('_attendance.csv', '')` (app.js line 291). -/
def inferSubject (file : String) : String :=
  ⟨removeFirstL "_attendance.csv".data file.data⟩

/-- The body of the directory-scan loop of `GET /api/subjects`
(app.js lines 289-297) on the accumulated subject list. -/
def subjStep (acc : List Rcd) (file : String) : List Rcd :=
  if strEndsWith file "_attendance.csv" then
    let subjectName := inferSubject file
    if acc.any (fun s => recGet s "subject" == some subjectName) then acc
    else acc ++ [[("subject", subjectName)]]
  else acc

/-- `GET /api/subjects` (app.js lines 282-306): read the registry, merge in
every subject inferred from a `_attendance.csv` file found in the attendance
directory, persist the consolidated list, and return it. -/
def listSubjects (fs : FS) : FS × List Rcd :=
  let subjects := (fs.attDir.map Prod.fst).foldl subjStep (readGrid fs.subjectsFile)
  ({ fs with subjectsFile := some (writeGrid subjects) }, subjects)

/-- `POST /api/attendance` (app.js lines 337-350): validate the four body
fields (falsy = empty string), then run `updateStudentAttendance`; any
thrown error is surfaced as a 500 with the message passed through.
Returns (state, status, error message). -/
def postAttendance (fs : FS) (name roll subject date : String) :
    FS × Nat × Option String :=
  if name = "" ∨ roll = "" ∨ subject = "" ∨ date = "" then
    (fs, 400, some "Missing required fields")
  else
    match updateStudentAttendance fs subject roll date with
    | (fs1, none) => (fs1, 201, none)
    | (fs1, some msg) => (fs1, 500, some msg)

/-- One attendance entry of the `GET /api/attendance/:subject/:date`
response (app.js lines 366-372); `name`/`roll` are `undefined` when the
row lacks the field. -/
structure Entry where
  name : Option String
  roll : Option String
  date : String
  time : String
  subject : String
deriving DecidableEq

/-- `GET /api/attendance/:subject/:date` (app.js lines 353-378): an absent
sheet yields `[]`; otherwise keep exactly the rows whose `date` field is the
string `"Present"` and project them to entries. -/
def getAttendance (fs : FS) (subject date : String) : List Entry :=
  match dirGet fs.attDir (sheetFileName subject) with
  | none => []
  | some g =>
      ((readGrid (some g)).filter (fun r => recGet r date == some "Present")).map
        (fun r => ⟨recGet r "name", recGet r "roll", date, "00:00:00", subject⟩)

/-- Split a character list on a separator character
(`String.prototype.split` with a one-character separator). -/
def splitOnChar (sep : Char) : List Char → List (List Char)
  | [] => [[]]
  | c :: rest =>
      let parts := splitOnChar sep rest
      if c = sep then [] :: parts
      else
        match parts with
        | [] => [[c]]
        | h :: t => (c :: h) :: t

/-- `rows.map(row => row.join(sep)).join` building block. -/
def joinChar (sep : Char) (parts : List (List Char)) : List Char :=
  List.intercalate [sep] parts

/-- The raw comma/newline-split cell matrix of a file's text
(app.js lines 254-255). -/
def csvRawRows (text : String) : List (List (List Char)) :=
  (splitOnChar '\n' text.data).map (splitOnChar ',')

/-- `DELETE /api/attendance/today` (app.js lines 239-278) on the subject's
sheet file content (`none` = file absent) with `today` the date string the
handler computed.  Operates on the raw comma-split rows: locate today's
column in the header row, splice that index out of every row (header
included), and rejoin.  Errors are (status, message). -/
def deleteTodayColumn (content : Option String) (subject today : String) :
    Except (Nat × String) String :=
  if subject = "" then .error (400, "Missing subject in request.")
  else
    match content with
    | none => .error (404, "Attendance file not found.")
    | some text =>
        let rows := csvRawRows text
        match findIdxO (fun cell => cell == today.data) (rows.headD []) with
        | none => .error (404, "No attendance recorded for today (" ++ today ++ ").")
        | some dateIndex =>
            .ok ⟨joinChar '\n' ((rows.map (fun row => row.eraseIdx dateIndex)).map (joinChar ','))⟩

/-- Well-formedness of a stored grid: rectangular data rows, and carrying
the given key as a column whenever it has data rows.  Every grid the
backend itself writes satisfies this for the relevant key. -/
abbrev GridWF (g : Grid) (key : String) : Prop :=
  (∀ row ∈ g.rows, row.length = g.cols.length) ∧ (g.rows = [] ∨ key ∈ g.cols)

/-- `GridWF` lifted to an optional (possibly absent) file. -/
abbrev OptWF (o : Option Grid) (key : String) : Prop :=
  ∀ g, o = some g → GridWF g key

/-- The roll values of a record list as JS reads them back after a rewrite
(`undefined` rendered as the empty cell). -/
abbrev rollsOf (recs : List Rcd) : List String :=
  recs.map (fun r => recGetD r "roll")

/-- No two rows carry the same roll value. -/
abbrev UniqRolls (recs : List Rcd) : Prop := (rollsOf recs).Nodup

/-! ### Basic record lemmas -/

theorem recGet_recSet_self (r : Rcd) (k v : String) : recGet (recSet r k v) k = some v := by
  induction r with
  | nil => simp [recSet, recGet]
  | cons p rest ih =>
      obtain ⟨a, b⟩ := p
      by_cases h : a = k
      · simp [recSet, recGet, h]
      · simp [recSet, recGet, h, ih]

theorem recGet_recSet_ne (r : Rcd) (k v k' : String) (h : k' ≠ k) :
    recGet (recSet r k v) k' = recGet r k' := by
  induction r with
  | nil => simp [recSet, recGet, Ne.symm h]
  | cons p rest ih =>
      obtain ⟨a, b⟩ := p
      by_cases hp : a = k
      · subst hp
        simp [recSet, recGet, Ne.symm h]
      · by_cases hp' : a = k'
        · simp [recSet, recGet, hp, hp', h]
        · simp [recSet, recGet, hp, hp', ih]

theorem recGetD_recSet_self (r : Rcd) (k v : String) : recGetD (recSet r k v) k = v := by
  simp [recGetD, recGet_recSet_self]

theorem recGetD_recSet_ne (r : Rcd) (k v k' : String) (h : k' ≠ k) :
    recGetD (recSet r k v) k' = recGetD r k' := by
  simp [recGetD, recGet_recSet_ne r k v k' h]

theorem recSet_eq_self (r : Rcd) (k v : String) (h : recGet r k = some v) :
    recSet r k v = r := by
  induction r with
  | nil => simp [recGet] at h
  | cons p rest ih =>
      obtain ⟨a, b⟩ := p
      by_cases hp : a = k
      · subst hp
        simp only [recGet, if_pos rfl] at h
        injection h with h
        simp [recSet, h]
      · simp only [recGet, hp, if_neg hp] at h
        simp [recSet, hp, ih h]

theorem recGet_eq_some_of_mem_keys (r : Rcd) (k : String) (h : k ∈ r.map Prod.fst) :
    ∃ v, recGet r k = some v := by
  induction r with
  | nil => simp at h
  | cons p rest ih =>
      obtain ⟨a, b⟩ := p
      by_cases hp : a = k
      · exact ⟨b, by simp [recGet, hp]⟩
      · have h' : k ∈ rest.map Prod.fst := by
          simp only [List.map_cons, List.mem_cons] at h
          rcases h with h1 | h1
          · exact absurd h1.symm hp
          · exact h1
        obtain ⟨v, hv⟩ := ih h'
        exact ⟨v, by simp [recGet, hp, hv]⟩

theorem mem_keys_recSet_of_mem (r : Rcd) (k v a : String) (h : a ∈ r.map Prod.fst) :
    a ∈ (recSet r k v).map Prod.fst := by
  induction r with
  | nil => simp at h
  | cons p rest ih =>
      obtain ⟨x, y⟩ := p
      simp only [List.map_cons, List.mem_cons] at h
      rcases h with h1 | h1
      · by_cases hp : x = k
        · subst hp
          simp [recSet, h1]
        · simp [recSet, hp, h1]
      · by_cases hp : x = k
        · subst hp
          simp only [recSet, if_pos rfl, List.map_cons, List.mem_cons]
          right
          exact h1
        · simp only [recSet, if_neg hp, List.map_cons, List.mem_cons]
          right
          exact ih h1

theorem mem_keys_recSet_self (r : Rcd) (k v : String) :
    k ∈ (recSet r k v).map Prod.fst := by
  induction r with
  | nil => simp [recSet]
  | cons p rest ih =>
      obtain ⟨a, b⟩ := p
      by_cases hp : a = k
      · simp [recSet, hp]
      · simp only [recSet, if_neg hp, List.map_cons, List.mem_cons]
        right
        exact ih

/-! ### findIdxO / findO lemmas -/

theorem findIdxO_nil (p : α → Bool) : findIdxO p ([] : List α) = none := rfl

theorem findIdxO_cons (p : α → Bool) (x : α) (xs : List α) :
    findIdxO p (x :: xs) = if p x then some 0 else (findIdxO p xs).map (· + 1) := rfl

theorem findIdxO_eq_none_iff (p : α → Bool) (l : List α) :
    findIdxO p l = none ↔ ∀ x ∈ l, p x = false := by
  induction l with
  | nil => simp [findIdxO_nil]
  | cons x xs ih =>
      rw [findIdxO_cons]
      by_cases hx : p x = true
      · simp [hx]
      · rw [if_neg hx]
        cases hfi : findIdxO p xs with
        | none =>
            simp only [Option.map_none', true_iff]
            intro y hy
            rcases List.mem_cons.mp hy with rfl | hy'
            · simpa using hx
            · exact (ih.mp hfi) y hy'
        | some j =>
            simp only [Option.map_some']
            constructor
            · intro hc
              exact absurd hc (by simp)
            · intro hall
              have : findIdxO p xs = none := ih.mpr (fun y hy => hall y (List.mem_cons.mpr (Or.inr hy)))
              rw [this] at hfi
              exact absurd hfi (by simp)

theorem findIdxO_lt_length (p : α → Bool) (l : List α) (i : Nat)
    (h : findIdxO p l = some i) : i < l.length := by
  induction l generalizing i with
  | nil => simp [findIdxO_nil] at h
  | cons x xs ih =>
      rw [findIdxO_cons] at h
      by_cases hx : p x = true
      · rw [if_pos hx] at h
        injection h with h
        simp [← h]
      · rw [if_neg hx] at h
        cases hfi : findIdxO p xs with
        | none => rw [hfi] at h; simp at h
        | some j =>
            rw [hfi] at h
            simp only [Option.map_some'] at h
            injection h with h
            have := ih j hfi
            simp only [List.length_cons]
            omega

theorem findIdxO_getD (p : α → Bool) (l : List α) (i : Nat) (d : α)
    (h : findIdxO p l = some i) : p (l.getD i d) = true := by
  induction l generalizing i with
  | nil => simp [findIdxO_nil] at h
  | cons x xs ih =>
      rw [findIdxO_cons] at h
      by_cases hx : p x = true
      · rw [if_pos hx] at h
        injection h with h
        rw [← h]
        simpa using hx
      · rw [if_neg hx] at h
        cases hfi : findIdxO p xs with
        | none => rw [hfi] at h; simp at h
        | some j =>
            rw [hfi] at h
            simp only [Option.map_some'] at h
            injection h with h
            rw [← h]
            simpa using ih j hfi

theorem findIdxO_earlier (p : α → Bool) (l : List α) (i : Nat) (d : α)
    (h : findIdxO p l = some i) : ∀ j < i, p (l.getD j d) = false := by
  induction l generalizing i with
  | nil => simp [findIdxO_nil] at h
  | cons x xs ih =>
      rw [findIdxO_cons] at h
      by_cases hx : p x = true
      · rw [if_pos hx] at h
        injection h with h
        omega
      · rw [if_neg hx] at h
        cases hfi : findIdxO p xs with
        | none => rw [hfi] at h; simp at h
        | some j' =>
            rw [hfi] at h
            simp only [Option.map_some'] at h
            injection h with h
            intro j hj
            cases j with
            | zero => simpa using Bool.eq_false_iff.mpr hx
            | succ j0 =>
                simp only [List.getD_cons_succ]
                exact ih j' hfi j0 (by omega)

theorem findIdxO_intro (p : α → Bool) (l : List α) (i : Nat) (d : α)
    (h1 : i < l.length) (h2 : p (l.getD i d) = true)
    (h3 : ∀ j < i, p (l.getD j d) = false) : findIdxO p l = some i := by
  induction l generalizing i with
  | nil => simp at h1
  | cons x xs ih =>
      cases i with
      | zero =>
          simp only [List.getD_cons_zero] at h2
          rw [findIdxO_cons, if_pos h2]
      | succ i0 =>
          have hx : p x = false := by simpa using h3 0 (by omega)
          rw [findIdxO_cons, if_neg (by simp [hx])]
          have : findIdxO p xs = some i0 := by
            refine ih i0 (by simpa using h1) (by simpa using h2) ?_
            intro j hj
            simpa using h3 (j + 1) (by omega)
          rw [this]
          rfl

theorem findO_nil (p : α → Bool) : findO p ([] : List α) = none := rfl

theorem findO_eq_none_iff (p : α → Bool) (l : List α) :
    findO p l = none ↔ ∀ x ∈ l, p x = false := by
  induction l with
  | nil => simp [findO_nil]
  | cons x xs ih =>
      by_cases hx : p x = true
      · simp only [findO, if_pos hx]
        constructor
        · intro hc
          exact absurd hc (by simp)
        · intro hall
          exact absurd (hall x (by simp)) (by simp [hx])
      · simp only [findO, if_neg hx]
        constructor
        · intro hn y hy
          rcases List.mem_cons.mp hy with rfl | hy'
          · simpa using hx
          · exact (ih.mp hn) y hy'
        · intro hall
          exact ih.mpr (fun y hy => hall y (List.mem_cons.mpr (Or.inr hy)))

theorem findO_some (p : α → Bool) (l : List α) (x : α)
    (h : findO p l = some x) : x ∈ l ∧ p x = true := by
  induction l with
  | nil => simp [findO_nil] at h
  | cons y ys ih =>
      by_cases hy : p y = true
      · simp only [findO, if_pos hy] at h
        injection h with h
        subst h
        exact ⟨by simp, hy⟩
      · simp only [findO, if_neg hy] at h
        obtain ⟨hm, hp⟩ := ih h
        exact ⟨by simp [hm], hp⟩

/-! ### markAt lemmas -/

theorem markAt_length (l : List Rcd) (i : Nat) (d : String) :
    (markAt l i d).length = l.length := by
  induction l generalizing i with
  | nil => simp [markAt]
  | cons r rest ih =>
      cases i with
      | zero => simp [markAt]
      | succ i0 => simp [markAt, ih]

theorem markAt_getD_of_ne (l : List Rcd) (i j : Nat) (d : String) (h : j ≠ i) :
    (markAt l i d).getD j [] = l.getD j [] := by
  induction l generalizing i j with
  | nil => simp [markAt]
  | cons r rest ih =>
      cases i with
      | zero =>
          cases j with
          | zero => exact absurd rfl h
          | succ j0 => simp [markAt]
      | succ i0 =>
          cases j with
          | zero => simp [markAt]
          | succ j0 => simpa [markAt] using ih i0 j0 (by omega)

theorem markAt_getD_self (l : List Rcd) (i : Nat) (d : String) (h : i < l.length) :
    (markAt l i d).getD i [] = recSet (l.getD i []) d "Present" := by
  induction l generalizing i with
  | nil => simp at h
  | cons r rest ih =>
      cases i with
      | zero => simp [markAt]
      | succ i0 => simpa [markAt] using ih i0 (by simpa using h)

theorem markAt_eq_self (l : List Rcd) (i : Nat) (d : String)
    (h : recSet (l.getD i []) d "Present" = l.getD i []) : markAt l i d = l := by
  induction l generalizing i with
  | nil => simp [markAt]
  | cons r rest ih =>
      cases i with
      | zero =>
          simp only [List.getD_cons_zero] at h
          simp [markAt, h]
      | succ i0 =>
          simp only [List.getD_cons_succ] at h
          simp [markAt, ih i0 h]

/-! ### Directory lemmas -/

theorem dirGet_dirSet_self (d : AttDir) (f : String) (g : Grid) :
    dirGet (dirSet d f g) f = some g := by
  induction d with
  | nil => simp [dirSet, dirGet]
  | cons p rest ih =>
      obtain ⟨a, q⟩ := p
      by_cases hp : a = f
      · simp [dirSet, dirGet, hp]
      · simp [dirSet, dirGet, hp, ih]

theorem dirGet_dirSet_ne (d : AttDir) (f : String) (g : Grid) (f' : String) (h : f' ≠ f) :
    dirGet (dirSet d f g) f' = dirGet d f' := by
  induction d with
  | nil => simp [dirSet, dirGet, Ne.symm h]
  | cons p rest ih =>
      obtain ⟨a, q⟩ := p
      by_cases hp : a = f
      · subst hp
        simp [dirSet, dirGet, Ne.symm h]
      · by_cases hp' : a = f'
        · simp [dirSet, dirGet, hp, hp', h]
        · simp [dirSet, dirGet, hp, hp', ih]

theorem dirSet_dirSet (d : AttDir) (f : String) (a b : Grid) :
    dirSet (dirSet d f a) f b = dirSet d f b := by
  induction d with
  | nil => simp [dirSet]
  | cons p rest ih =>
      obtain ⟨x, q⟩ := p
      by_cases hp : x = f
      · simp [dirSet, hp]
      · simp [dirSet, hp, ih]

theorem mem_dirSet (d : AttDir) (f : String) (g : Grid) (p : String × Grid)
    (h : p ∈ dirSet d f g) : p = (f, g) ∨ p ∈ d := by
  induction d with
  | nil => simpa [dirSet] using h
  | cons q rest ih =>
      by_cases hq : q.1 = f
      · simp only [dirSet, hq, if_true] at h
        rcases List.mem_cons.mp h with h | h
        · exact Or.inl h
        · exact Or.inr (List.mem_cons.mpr (Or.inr h))
      · simp only [dirSet, hq, if_false] at h
        rcases List.mem_cons.mp h with h | h
        · exact Or.inr (List.mem_cons.mpr (Or.inl h))
        · rcases ih h with h | h
          · exact Or.inl h
          · exact Or.inr (List.mem_cons.mpr (Or.inr h))

/-! ### List indexing helpers -/

theorem getD_map_of_lt (f : α → β) (l : List α) (i : Nat) (d' : β) (d : α)
    (h : i < l.length) : (l.map f).getD i d' = f (l.getD i d) := by
  induction l generalizing i with
  | nil => simp at h
  | cons x xs ih =>
      cases i with
      | zero => simp
      | succ i0 => simpa using ih i0 (by simpa using h)

theorem list_ext_getD (l l' : List β) (d : β) (hlen : l.length = l'.length)
    (h : ∀ i, i < l.length → l.getD i d = l'.getD i d) : l = l' := by
  induction l generalizing l' with
  | nil =>
      cases l' with
      | nil => rfl
      | cons => simp at hlen
  | cons x xs ih =>
      cases l' with
      | nil => simp at hlen
      | cons y ys =>
          have h0 : x = y := by simpa using h 0 (by simp)
          have ht : xs = ys := by
            refine ih ys (by simpa using hlen) ?_
            intro i hi
            simpa using h (i + 1) (by simpa using hi)
          rw [h0, ht]

theorem getD_mem_of_lt (l : List α) (i : Nat) (d : α) (h : i < l.length) :
    l.getD i d ∈ l := by
  induction l generalizing i with
  | nil => simp at h
  | cons x xs ih =>
      cases i with
      | zero => simp
      | succ i0 =>
          simp only [List.getD_cons_succ, List.mem_cons]
          exact Or.inr (ih i0 (by simpa using h))

theorem getD_append_left (l l' : List α) (i : Nat) (d : α) (h : i < l.length) :
    (l ++ l').getD i d = l.getD i d := by
  induction l generalizing i with
  | nil => simp at h
  | cons x xs ih =>
      cases i with
      | zero => simp
      | succ i0 => simpa using ih i0 (by simpa using h)

theorem getD_append_length (l l' : List α) (d : α) :
    (l ++ l').getD l.length d = l'.getD 0 d := by
  induction l with
  | nil => simp
  | cons x xs ih => simpa using ih

/-! ### Grid read/write lemmas -/

theorem keys_zip_map (cols : List String) (f : String → String) :
    (cols.zip (cols.map f)).map Prod.fst = cols := by
  induction cols with
  | nil => simp
  | cons c cs ih => simp [ih]

theorem recGet_zip_map (cols : List String) (f : String → String) (k : String) :
    recGet (cols.zip (cols.map f)) k = if k ∈ cols then some (f k) else none := by
  induction cols with
  | nil => simp [recGet]
  | cons c cs ih =>
      by_cases hc : c = k
      · subst hc
        simp [recGet]
      · have hkc : ¬ (k = c) := fun hh => hc hh.symm
        rw [List.map_cons, List.zip_cons_cons]
        simp only [recGet, if_neg hc]
        rw [ih]
        simp [List.mem_cons, hkc]

theorem cols_writeGrid (recs : List Rcd) :
    (writeGrid recs).cols = (recs.headD []).map Prod.fst := by
  cases recs <;> rfl

theorem writeGrid_cons (r0 : Rcd) (rest : List Rcd) :
    writeGrid (r0 :: rest) =
      ⟨r0.map Prod.fst,
        (r0 :: rest).map (fun r => (r0.map Prod.fst).map (fun c => recGetD r c))⟩ := rfl

theorem readGrid_writeGrid (recs : List Rcd) :
    readGrid (some (writeGrid recs)) =
      recs.map (fun r =>
        ((recs.headD []).map Prod.fst).zip
          (((recs.headD []).map Prod.fst).map (fun c => recGetD r c))) := by
  cases recs with
  | nil => rfl
  | cons r0 rest =>
      simp only [writeGrid_cons, readGrid, List.map_map, List.headD_cons]
      rfl

theorem writeGrid_readGrid_writeGrid (recs : List Rcd) :
    writeGrid (readGrid (some (writeGrid recs))) = writeGrid recs := by
  cases recs with
  | nil => rfl
  | cons r0 rest =>
      rw [readGrid_writeGrid]
      simp only [List.headD_cons, List.map_cons]
      rw [writeGrid_cons, writeGrid_cons]
      simp only [Grid.mk.injEq]
      constructor
      · exact keys_zip_map _ _
      · rw [keys_zip_map]
        rw [← List.map_cons (fun r =>
            (r0.map Prod.fst).zip ((r0.map Prod.fst).map (fun c => recGetD r c))) r0 rest]
        rw [List.map_map]
        apply List.map_congr_left
        intro r hr
        simp only [Function.comp_apply]
        apply List.map_congr_left
        intro c hc
        simp only [recGetD, recGet_zip_map, hc, if_true, Option.getD_some]

theorem writeGrid_congr (recs recs' : List Rcd)
    (hlen : recs.length = recs'.length)
    (hkeys : (recs.headD []).map Prod.fst = (recs'.headD []).map Prod.fst)
    (hval : ∀ i, i < recs.length → ∀ c ∈ (recs.headD []).map Prod.fst,
        recGetD (recs.getD i []) c = recGetD (recs'.getD i []) c) :
    writeGrid recs = writeGrid recs' := by
  cases recs with
  | nil =>
      cases recs' with
      | nil => rfl
      | cons => simp at hlen
  | cons r0 rest =>
      cases recs' with
      | nil => simp at hlen
      | cons r0' rest' =>
          simp only [List.headD_cons] at hkeys hval
          simp only [writeGrid_cons, Grid.mk.injEq]
          refine ⟨hkeys, ?_⟩
          rw [← hkeys]
          apply list_ext_getD _ _ [] (by simpa using hlen)
          intro i hi
          simp only [List.length_map] at hi
          have hi' : i < (r0' :: rest').length := by
            have hl := hlen
            simp only [List.length_cons] at hi hl ⊢
            omega
          rw [getD_map_of_lt _ _ i _ [] hi, getD_map_of_lt _ _ i _ [] hi']
          apply List.map_congr_left
          intro c hc
          exact hval i hi c hc

theorem writeGrid_rect (recs : List Rcd) :
    ∀ row ∈ (writeGrid recs).rows, row.length = (writeGrid recs).cols.length := by
  cases recs with
  | nil => simp [writeGrid]
  | cons r0 rest =>
      intro row hrow
      simp only [writeGrid_cons] at hrow ⊢
      obtain ⟨r, _, rfl⟩ := List.mem_map.mp hrow
      simp

theorem writeGrid_rows_eq_nil (recs : List Rcd) :
    (writeGrid recs).rows = [] ↔ recs = [] := by
  cases recs <;> simp [writeGrid]

theorem length_readGrid (g : Grid) : (readGrid (some g)).length = g.rows.length := by
  simp [readGrid]

theorem readGrid_getD (g : Grid) (j : Nat) (h : j < g.rows.length) :
    (readGrid (some g)).getD j [] = g.cols.zip (g.rows.getD j []) := by
  simp only [readGrid]
  rw [getD_map_of_lt _ _ j _ [] h]

theorem keys_readGrid_rect (g : Grid)
    (hrect : ∀ row ∈ g.rows, row.length = g.cols.length)
    (j : Nat) (h : j < g.rows.length) :
    ((readGrid (some g)).getD j []).map Prod.fst = g.cols := by
  rw [readGrid_getD g j h]
  apply List.map_fst_zip
  rw [hrect _ (getD_mem_of_lt _ _ _ h)]

theorem recGet_normalize (recs : List Rcd) (j : Nat) (k : String) (h : j < recs.length) :
    recGet ((readGrid (some (writeGrid recs))).getD j []) k =
      if k ∈ (recs.headD []).map Prod.fst then some (recGetD (recs.getD j []) k)
      else none := by
  rw [readGrid_writeGrid]
  rw [getD_map_of_lt _ _ j _ [] h]
  exact recGet_zip_map _ _ k

theorem map_map_congr (f : β → γ) (g : α → β) (g' : α → γ) (l : List α)
    (h : ∀ a ∈ l, f (g a) = g' a) : (l.map g).map f = l.map g' := by
  induction l with
  | nil => rfl
  | cons x xs ih =>
      simp only [List.map_cons, List.cons.injEq]
      exact ⟨h x (by simp), ih (fun a ha => h a (by simp [ha]))⟩

theorem rollsOf_normalize (recs : List Rcd)
    (h : "roll" ∈ (recs.headD []).map Prod.fst ∨ recs = []) :
    rollsOf (readGrid (some (writeGrid recs))) = rollsOf recs := by
  rcases h with h | rfl
  · rw [readGrid_writeGrid]
    unfold rollsOf
    apply map_map_congr
    intro r hr
    simp only [recGetD, recGet_zip_map, h, if_true, Option.getD_some]
  · rfl

/-! ### Operation-level branch lemmas -/

theorem getOrCreate_of_none (fs : FS) (subject : String)
    (h : dirGet fs.attDir (sheetFileName subject) = none) :
    getOrCreateAttendanceFile fs subject =
      { fs with
          attDir :=
            dirSet fs.attDir (sheetFileName subject)
              (writeGrid ((readGrid fs.studentsFile).map
                (fun s => [("name", recGetD s "name"), ("roll", recGetD s "roll")]))) } := by
  unfold getOrCreateAttendanceFile
  rw [h]

theorem getOrCreate_of_some (fs : FS) (subject : String) (g : Grid)
    (h : dirGet fs.attDir (sheetFileName subject) = some g) :
    getOrCreateAttendanceFile fs subject = fs := by
  unfold getOrCreateAttendanceFile
  rw [h]

theorem getOrCreate_studentsFile (fs : FS) (subject : String) :
    (getOrCreateAttendanceFile fs subject).studentsFile = fs.studentsFile := by
  cases hd : dirGet fs.attDir (sheetFileName subject) with
  | some g => rw [getOrCreate_of_some fs subject g hd]
  | none => rw [getOrCreate_of_none fs subject hd]

theorem getOrCreate_subjectsFile (fs : FS) (subject : String) :
    (getOrCreateAttendanceFile fs subject).subjectsFile = fs.subjectsFile := by
  cases hd : dirGet fs.attDir (sheetFileName subject) with
  | some g => rw [getOrCreate_of_some fs subject g hd]
  | none => rw [getOrCreate_of_none fs subject hd]

theorem dirGet_getOrCreate (fs : FS) (subject : String) :
    dirGet (getOrCreateAttendanceFile fs subject).attDir (sheetFileName subject) =
      some (getOrCreateGrid (dirGet fs.attDir (sheetFileName subject))
        (readGrid fs.studentsFile)) := by
  cases hd : dirGet fs.attDir (sheetFileName subject) with
  | some g => rw [getOrCreate_of_some fs subject g hd, hd]; rfl
  | none =>
      rw [getOrCreate_of_none fs subject hd]
      exact dirGet_dirSet_self _ _ _

theorem dirGet_getOrCreate_ne (fs : FS) (subject f' : String)
    (h : f' ≠ sheetFileName subject) :
    dirGet (getOrCreateAttendanceFile fs subject).attDir f' = dirGet fs.attDir f' := by
  cases hd : dirGet fs.attDir (sheetFileName subject) with
  | some g => rw [getOrCreate_of_some fs subject g hd]
  | none =>
      rw [getOrCreate_of_none fs subject hd]
      exact dirGet_dirSet_ne _ _ _ _ h

theorem markSheet_found (g : Grid) (roster : List Rcd) (roll date : String) (i : Nat)
    (h : findIdxO (fun r => recGet r "roll" == some roll) (readGrid (some g)) = some i) :
    markSheet g roster roll date = (writeGrid (markAt (readGrid (some g)) i date), none) := by
  unfold markSheet
  simp only [h]

theorem markSheet_append (g : Grid) (roster : List Rcd) (roll date : String) (student : Rcd)
    (h1 : findIdxO (fun r => recGet r "roll" == some roll) (readGrid (some g)) = none)
    (h2 : findO (fun s => recGet s "roll" == some roll) roster = some student) :
    markSheet g roster roll date =
      (writeGrid (readGrid (some g) ++
        [recSet [("name", recGetD student "name"), ("roll", recGetD student "roll")]
          date "Present"]), none) := by
  unfold markSheet
  simp only [h1, h2]

theorem markSheet_err (g : Grid) (roster : List Rcd) (roll date : String)
    (h1 : findIdxO (fun r => recGet r "roll" == some roll) (readGrid (some g)) = none)
    (h2 : findO (fun s => recGet s "roll" == some roll) roster = none) :
    markSheet g roster roll date =
      (g, some ("Student with roll " ++ roll ++ " not found")) := by
  unfold markSheet
  simp only [h1, h2]

theorem update_ok (fs : FS) (subject roll date : String) (g' : Grid)
    (h : markSheet (getOrCreateGrid (dirGet fs.attDir (sheetFileName subject))
          (readGrid fs.studentsFile)) (readGrid fs.studentsFile) roll date = (g', none)) :
    updateStudentAttendance fs subject roll date =
      ({ getOrCreateAttendanceFile fs subject with
          attDir := dirSet (getOrCreateAttendanceFile fs subject).attDir
            (sheetFileName subject) g' }, none) := by
  unfold updateStudentAttendance
  simp only [h]

theorem update_err (fs : FS) (subject roll date : String) (g' : Grid) (e : String)
    (h : markSheet (getOrCreateGrid (dirGet fs.attDir (sheetFileName subject))
          (readGrid fs.studentsFile)) (readGrid fs.studentsFile) roll date = (g', some e)) :
    updateStudentAttendance fs subject roll date =
      (getOrCreateAttendanceFile fs subject, some e) := by
  unfold updateStudentAttendance
  simp only [h]

theorem seed_readback (students : List Rcd) :
    readGrid (some (writeGrid (students.map
        (fun s => [("name", recGetD s "name"), ("roll", recGetD s "roll")])))) =
      students.map (fun s => [("name", recGetD s "name"), ("roll", recGetD s "roll")]) := by
  cases students with
  | nil => rfl
  | cons s0 rest =>
      rw [readGrid_writeGrid]
      rw [List.map_map]
      apply List.map_congr_left
      intro s _
      rfl

theorem findIdxO_roll_none_iff (l : List Rcd) (roll : String) :
    findIdxO (fun r => recGet r "roll" == some roll) l = none ↔
      ∀ r ∈ l, recGet r "roll" ≠ some roll := by
  rw [findIdxO_eq_none_iff]
  constructor
  · intro h r hr
    simpa using h r hr
  · intro h r hr
    simpa using h r hr

theorem findO_roll_none_iff (l : List Rcd) (roll : String) :
    findO (fun r => recGet r "roll" == some roll) l = none ↔
      ∀ r ∈ l, recGet r "roll" ≠ some roll := by
  rw [findO_eq_none_iff]
  constructor
  · intro h r hr
    simpa using h r hr
  · intro h r hr
    simpa using h r hr

theorem mem_getAttendance (fs : FS) (subject date : String) (e : Entry) :
    e ∈ getAttendance fs subject date ↔
      ∃ g, dirGet fs.attDir (sheetFileName subject) = some g ∧
        ∃ r, r ∈ readGrid (some g) ∧ recGet r date = some "Present" ∧
          e = ⟨recGet r "name", recGet r "roll", date, "00:00:00", subject⟩ := by
  unfold getAttendance
  cases hd : dirGet fs.attDir (sheetFileName subject) with
  | none => simp
  | some g =>
      simp only [List.mem_map, List.mem_filter]
      constructor
      · rintro ⟨r, ⟨hr, hp⟩, rfl⟩
        exact ⟨g, rfl, r, hr, by simpa using hp, rfl⟩
      · rintro ⟨g', hg', r, hr, hp, rfl⟩
        injection hg' with hg'
        subst hg'
        exact ⟨r, ⟨hr, by simpa using hp⟩, rfl⟩

/-! ### Claim C1 -/

/-- **C1**: for every subject, `GetOrCreate(subject)` with no existing sheet
file creates a sheet whose rows are exactly `{name, roll}` for every current
roster entry in roster order, with no date columns (header `[]` for an empty
roster, else exactly `["name", "roll"]`); with an existing sheet file the
call leaves the state unchanged, so the operation is idempotent. -/
theorem c1_getOrCreate_seeds_and_idempotent (fs : FS) (subject : String) :
    (dirGet fs.attDir (sheetFileName subject) = none →
      readGrid (dirGet (getOrCreateAttendanceFile fs subject).attDir (sheetFileName subject)) =
        (readGrid fs.studentsFile).map
          (fun s => [("name", recGetD s "name"), ("roll", recGetD s "roll")]) ∧
      ∀ g, dirGet (getOrCreateAttendanceFile fs subject).attDir (sheetFileName subject) = some g →
        g.cols = [] ∨ g.cols = ["name", "roll"]) ∧
    (∀ g, dirGet fs.attDir (sheetFileName subject) = some g →
      getOrCreateAttendanceFile fs subject = fs) ∧
    getOrCreateAttendanceFile (getOrCreateAttendanceFile fs subject) subject =
      getOrCreateAttendanceFile fs subject := by
  refine ⟨?_, ?_, ?_⟩
  · intro h
    have hD := dirGet_getOrCreate fs subject
    rw [h] at hD
    constructor
    · rw [hD]
      exact seed_readback _
    · intro g hg
      rw [hD] at hg
      injection hg with hg
      subst hg
      rw [show getOrCreateGrid none (readGrid fs.studentsFile) =
          writeGrid ((readGrid fs.studentsFile).map
            (fun s => [("name", recGetD s "name"), ("roll", recGetD s "roll")])) from rfl]
      rw [cols_writeGrid]
      cases readGrid fs.studentsFile with
      | nil => left; rfl
      | cons s0 rest => right; rfl
  · intro g hg
    exact getOrCreate_of_some fs subject g hg
  · cases hd : dirGet fs.attDir (sheetFileName subject) with
    | some g =>
        rw [getOrCreate_of_some fs subject g hd]
        exact getOrCreate_of_some fs subject g hd
    | none =>
        have hD := dirGet_getOrCreate fs subject
        exact getOrCreate_of_some _ subject _ hD

def fsC1 : FS :=
  ⟨some ⟨["name", "roll", "descriptors"], [["Ann", "5", "d0"]]⟩, none, []⟩

theorem c1_witness :
    dirGet fsC1.attDir (sheetFileName "Math") = none ∧
    readGrid (dirGet (getOrCreateAttendanceFile fsC1 "Math").attDir (sheetFileName "Math")) =
      [[("name", "Ann"), ("roll", "5")]] ∧
    getOrCreateAttendanceFile (getOrCreateAttendanceFile fsC1 "Math") "Math" =
      getOrCreateAttendanceFile fsC1 "Math" := by
  have h := c1_getOrCreate_seeds_and_idempotent fsC1 "Math"
  refine ⟨rfl, ?_, h.2.2⟩
  have h2 := (h.1 rfl).1
  rw [h2]
  decide

/-! ### Claim C4 -/

/-- **C4**: `QueryByDate(subject, date)` returns an entry
`{name, roll, date, subject}` for exactly those sheet rows whose `date`
field is the string `"Present"` (any other value, or a missing field, is
excluded), and an absent sheet file yields the empty sequence, not an
error. -/
theorem c4_query_by_date (fs : FS) (subject date : String) :
    (dirGet fs.attDir (sheetFileName subject) = none →
      getAttendance fs subject date = []) ∧
    ∀ e : Entry, e ∈ getAttendance fs subject date ↔
      ∃ g, dirGet fs.attDir (sheetFileName subject) = some g ∧
        ∃ r, r ∈ readGrid (some g) ∧ recGet r date = some "Present" ∧
          e = ⟨recGet r "name", recGet r "roll", date, "00:00:00", subject⟩ := by
  constructor
  · intro h
    unfold getAttendance
    rw [h]
  · exact mem_getAttendance fs subject date

def fsC4 : FS :=
  ⟨none, none,
    [("Math_attendance.csv",
      ⟨["name", "roll", "2024-01-10"], [["Ann", "5", "Present"], ["Bob", "7", ""]]⟩)]⟩

theorem c4_witness :
    getAttendance fsC4 "History" "2024-01-10" = [] ∧
    (⟨some "Ann", some "5", "2024-01-10", "00:00:00", "Math"⟩ : Entry) ∈
      getAttendance fsC4 "Math" "2024-01-10" := by
  constructor
  · exact (c4_query_by_date fsC4 "History" "2024-01-10").1 (by decide)
  · apply ((c4_query_by_date fsC4 "Math" "2024-01-10").2 _).mpr
    refine ⟨⟨["name", "roll", "2024-01-10"], [["Ann", "5", "Present"], ["Bob", "7", ""]]⟩,
      by decide, [("name", "Ann"), ("roll", "5"), ("2024-01-10", "Present")],
      by decide, by decide, by decide⟩

/-! ### Claim C10 -/

def freshFS : FS := ⟨none, none, []⟩

/-- **C10**: reading a persisted file that does not exist yields the empty
record list rather than an error (`readGrid none = []`); on a fresh data
directory, listing students succeeds with `[]` and status 200, listing
subjects returns `[]`, and `GetOrCreate` on the empty roster seeds a sheet
with zero rows (the empty grid). -/
theorem c10_absent_reads_empty :
    readGrid none = [] ∧
    getStudents freshFS = ([], 200) ∧
    (listSubjects freshFS).2 = [] ∧
    ∀ subject : String,
      dirGet (getOrCreateAttendanceFile freshFS subject).attDir (sheetFileName subject) =
        some ⟨[], []⟩ := by
  refine ⟨rfl, rfl, rfl, ?_⟩
  intro subject
  rw [getOrCreate_of_none freshFS subject rfl]
  exact dirGet_dirSet_self _ _ _

/-! ### Claim C9 -/

/-- **C9**: when Upsert is called with a roll that already exists in the
roster, only the roster record at the found index is replaced and the roster
file rewritten; the attendance directory and the subject registry file are
untouched, so every subject sheet is byte-for-byte unchanged. -/
theorem c9_upsert_existing_frame (fs : FS) (name roll descriptors : String)
    (hval : ¬ (name = "" ∨ roll = "" ∨ descriptors = ""))
    (i : Nat)
    (hfind : findIdxO (fun s => recGet s "roll" == some roll)
      (readGrid fs.studentsFile) = some i) :
    postStudents fs name roll descriptors =
      ({ fs with
          studentsFile := some (writeGrid ((readGrid fs.studentsFile).set i
            [("name", name), ("roll", roll), ("descriptors", descriptors)])) }, 201) ∧
    (postStudents fs name roll descriptors).1.attDir = fs.attDir ∧
    (postStudents fs name roll descriptors).1.subjectsFile = fs.subjectsFile := by
  have h1 : postStudents fs name roll descriptors =
      ({ fs with
          studentsFile := some (writeGrid ((readGrid fs.studentsFile).set i
            [("name", name), ("roll", roll), ("descriptors", descriptors)])) }, 201) := by
    unfold postStudents
    rw [if_neg hval]
    simp only [hfind]
  exact ⟨h1, by rw [h1], by rw [h1]⟩

def fsC9 : FS :=
  ⟨some ⟨["name", "roll", "descriptors"], [["Ann", "5", "d0"]]⟩,
    some ⟨["subject"], [["Math"]]⟩,
    [("Math_attendance.csv", ⟨["name", "roll"], [["Zed", "9"]]⟩)]⟩

theorem c9_witness :
    (postStudents fsC9 "Anna" "5" "d1").1.attDir = fsC9.attDir ∧
    (postStudents fsC9 "Anna" "5" "d1").1.subjectsFile = fsC9.subjectsFile := by
  have h := c9_upsert_existing_frame fsC9 "Anna" "5" "d1" (by decide) 0 (by decide)
  exact ⟨h.2.1, h.2.2⟩

/-! ### Claim C3 -/

/-- **C3** (amended): `MarkPresent(subject, roll, date)` fails iff the roll
has no row in the resolved sheet and no record in the roster; in that case
the thrown error is `"Student with roll <roll> not found"` and the route
surfaces it as a **500** (the handler's catch maps every error to 500; the
taxonomy's `NotFoundError` → 404 mapping is not applied here).  When the
roll is absent from the sheet but a roster record is found, the new row
`{name, roll, [date]: "Present"}` is appended, the sheet rewritten, and the
call succeeds with 201. -/
theorem c3_mark_not_found (fs : FS) (name roll subject date : String)
    (hname : name ≠ "") (hroll : roll ≠ "") (hsubj : subject ≠ "") (hdate : date ≠ "") :
    ((updateStudentAttendance fs subject roll date).2 ≠ none ↔
      ((∀ r ∈ readGrid (some (getOrCreateGrid (dirGet fs.attDir (sheetFileName subject))
            (readGrid fs.studentsFile))), recGet r "roll" ≠ some roll) ∧
       (∀ s ∈ readGrid fs.studentsFile, recGet s "roll" ≠ some roll))) ∧
    ((∀ r ∈ readGrid (some (getOrCreateGrid (dirGet fs.attDir (sheetFileName subject))
          (readGrid fs.studentsFile))), recGet r "roll" ≠ some roll) →
      (∀ s ∈ readGrid fs.studentsFile, recGet s "roll" ≠ some roll) →
      postAttendance fs name roll subject date =
        (getOrCreateAttendanceFile fs subject, 500,
          some ("Student with roll " ++ roll ++ " not found"))) ∧
    (∀ student : Rcd,
      (∀ r ∈ readGrid (some (getOrCreateGrid (dirGet fs.attDir (sheetFileName subject))
          (readGrid fs.studentsFile))), recGet r "roll" ≠ some roll) →
      findO (fun s => recGet s "roll" == some roll) (readGrid fs.studentsFile) = some student →
      updateStudentAttendance fs subject roll date =
        ({ getOrCreateAttendanceFile fs subject with
            attDir := dirSet (getOrCreateAttendanceFile fs subject).attDir (sheetFileName subject)
              (writeGrid ((readGrid (some (getOrCreateGrid (dirGet fs.attDir (sheetFileName subject))
                  (readGrid fs.studentsFile)))) ++
                [recSet [("name", recGetD student "name"), ("roll", recGetD student "roll")]
                  date "Present"])) }, none) ∧
      (postAttendance fs name roll subject date).2.1 = 201) := by
  have hval : ¬ (name = "" ∨ roll = "" ∨ subject = "" ∨ date = "") := by
    simp [hname, hroll, hsubj, hdate]
  refine ⟨?_, ?_, ?_⟩
  · constructor
    · intro hne
      cases hfi : findIdxO (fun r => recGet r "roll" == some roll)
          (readGrid (some (getOrCreateGrid (dirGet fs.attDir (sheetFileName subject))
            (readGrid fs.studentsFile)))) with
      | some i =>
          exfalso
          have hu := update_ok fs subject roll date _
            (markSheet_found _ (readGrid fs.studentsFile) roll date i hfi)
          rw [hu] at hne
          exact hne rfl
      | none =>
          cases hfo : findO (fun s => recGet s "roll" == some roll)
              (readGrid fs.studentsFile) with
          | some st =>
              exfalso
              have hu := update_ok fs subject roll date _
                (markSheet_append _ _ roll date st hfi hfo)
              rw [hu] at hne
              exact hne rfl
          | none =>
              exact ⟨(findIdxO_roll_none_iff _ _).mp hfi, (findO_roll_none_iff _ _).mp hfo⟩
    · rintro ⟨h1, h2⟩
      have hfi := (findIdxO_roll_none_iff _ _).mpr h1
      have hfo := (findO_roll_none_iff _ _).mpr h2
      rw [update_err fs subject roll date _ _ (markSheet_err _ _ _ _ hfi hfo)]
      simp
  · intro h1 h2
    have hfi := (findIdxO_roll_none_iff _ _).mpr h1
    have hfo := (findO_roll_none_iff _ _).mpr h2
    have hu := update_err fs subject roll date _ _ (markSheet_err _ _ _ _ hfi hfo)
    unfold postAttendance
    rw [if_neg hval, hu]
  · intro student h1 hfo
    have hfi := (findIdxO_roll_none_iff _ _).mpr h1
    have hu := update_ok fs subject roll date _
      (markSheet_append _ _ roll date student hfi hfo)
    refine ⟨hu, ?_⟩
    unfold postAttendance
    rw [if_neg hval, hu]

def fsC3 : FS :=
  ⟨some ⟨["name", "roll", "descriptors"], [["Ann", "5", "d0"]]⟩, none,
    [("History_attendance.csv", ⟨["name", "roll"], [["Zed", "9"]]⟩)]⟩

theorem c3_witness :
    postAttendance fsC3 "Ann" "7" "Math" "2024-01-10" =
      (getOrCreateAttendanceFile fsC3 "Math", 500,
        some ("Student with roll " ++ "7" ++ " not found")) ∧
    (postAttendance fsC3 "Ann" "5" "History" "2024-01-10").2.1 = 201 := by
  have h := c3_mark_not_found fsC3 "Ann" "7" "Math" "2024-01-10"
    (by decide) (by decide) (by decide) (by decide)
  have h' := c3_mark_not_found fsC3 "Ann" "5" "History" "2024-01-10"
    (by decide) (by decide) (by decide) (by decide)
  constructor
  · exact h.2.1 (by decide) (by decide)
  · exact (h'.2.2 [("name", "Ann"), ("roll", "5"), ("descriptors", "d0")]
      (by decide) (by decide)).2

/-- C3 counterexample: at a concrete state with an empty roster and no
sheet, marking an unknown roll fails with HTTP status **500**, not the 404
the claim requires from the error taxonomy. -/
theorem c3_counterexample :
    (postAttendance ⟨none, none, []⟩ "Ann" "5" "Math" "2024-01-10").2.1 = 500 ∧
    (postAttendance ⟨none, none, []⟩ "Ann" "5" "Math" "2024-01-10").2.1 ≠ 404 := by
  constructor
  · decide
  · decide

/-! ### Claim C8 -/

theorem getD_eraseIdx_lt (l : List α) (n j : Nat) (d : α) (h : j < n) :
    (l.eraseIdx n).getD j d = l.getD j d := by
  induction l generalizing n j with
  | nil => simp [List.eraseIdx]
  | cons x xs ih =>
      cases n with
      | zero => omega
      | succ m =>
          cases j with
          | zero => simp [List.eraseIdx]
          | succ i => simpa [List.eraseIdx] using ih m i (by omega)

theorem getD_eraseIdx_ge (l : List α) (n j : Nat) (d : α) (h : n ≤ j) :
    (l.eraseIdx n).getD j d = l.getD (j + 1) d := by
  induction l generalizing n j with
  | nil => simp [List.eraseIdx]
  | cons x xs ih =>
      cases n with
      | zero => simp [List.eraseIdx]
      | succ m =>
          cases j with
          | zero => omega
          | succ i => simpa [List.eraseIdx] using ih m i (by omega)

/-- **C8**: `DeleteTodayColumn(subject)` (for a nonempty subject) fails with
404 when the sheet file is absent, fails with 404 when the raw header row
has no cell equal to the handler's `today` string, and otherwise rewrites
the file with the column at the found index spliced out of **every**
comma-split row — header row included — leaving every other column of every
row unchanged (cells below the index keep their position, cells above shift
down by one). -/
theorem c8_delete_today_column (text : String) (subject today : String)
    (hsubj : subject ≠ "") :
    deleteTodayColumn none subject today = .error (404, "Attendance file not found.") ∧
    (findIdxO (fun cell => cell == today.data) ((csvRawRows text).headD []) = none →
      deleteTodayColumn (some text) subject today =
        .error (404, "No attendance recorded for today (" ++ today ++ ").")) ∧
    (∀ dateIndex : Nat,
      findIdxO (fun cell => cell == today.data) ((csvRawRows text).headD []) = some dateIndex →
      ((csvRawRows text).headD []).getD dateIndex [] = today.data ∧
      deleteTodayColumn (some text) subject today =
        .ok ⟨joinChar '\n' (((csvRawRows text).map (fun row => row.eraseIdx dateIndex)).map
          (joinChar ','))⟩ ∧
      ((csvRawRows text).map (fun row => row.eraseIdx dateIndex)).length =
        (csvRawRows text).length ∧
      (∀ i, i < (csvRawRows text).length →
        ∀ j, (j < dateIndex →
          ((((csvRawRows text).map (fun row => row.eraseIdx dateIndex)).getD i []).getD j []) =
            (((csvRawRows text).getD i []).getD j [])) ∧
        (dateIndex ≤ j →
          ((((csvRawRows text).map (fun row => row.eraseIdx dateIndex)).getD i []).getD j []) =
            (((csvRawRows text).getD i []).getD (j + 1) []))) ) := by
  refine ⟨?_, ?_, ?_⟩
  · unfold deleteTodayColumn
    rw [if_neg hsubj]
  · intro h
    unfold deleteTodayColumn
    rw [if_neg hsubj]
    simp only [h]
  · intro dateIndex h
    refine ⟨?_, ?_, List.length_map _ _, ?_⟩
    · have := findIdxO_getD (fun cell => cell == today.data)
        ((csvRawRows text).headD []) dateIndex [] h
      simpa using this
    · unfold deleteTodayColumn
      rw [if_neg hsubj]
      simp only [h]
    · intro i hi
      have hrow : (((csvRawRows text).map (fun row => row.eraseIdx dateIndex)).getD i []) =
          ((csvRawRows text).getD i []).eraseIdx dateIndex := by
        rw [getD_map_of_lt _ _ i _ [] hi]
      intro j
      constructor
      · intro hj
        rw [hrow]
        exact getD_eraseIdx_lt _ _ _ _ hj
      · intro hj
        rw [hrow]
        exact getD_eraseIdx_ge _ _ _ _ hj

theorem c8_witness :
    deleteTodayColumn none "Math" "2024-01-10" =
      .error (404, "Attendance file not found.") ∧
    deleteTodayColumn (some "name,roll\nAnn,5") "Math" "2024-01-10" =
      .error (404, "No attendance recorded for today (" ++ "2024-01-10" ++ ").") ∧
    deleteTodayColumn (some "name,roll,2024-01-10\nAnn,5,Present") "Math" "2024-01-10" =
      .ok "name,roll\nAnn,5" := by
  have h1 := c8_delete_today_column "name,roll\nAnn,5" "Math" "2024-01-10" (by decide)
  have h2 := c8_delete_today_column "name,roll,2024-01-10\nAnn,5,Present" "Math" "2024-01-10"
    (by decide)
  refine ⟨h1.1, h1.2.1 (by decide), ?_⟩
  have h3 := (h2.2.2 2 (by decide)).2.1
  rw [h3]
  exact congrArg Except.ok (by decide)

/-! ### Claim C2: supporting lemmas -/

theorem headD_eq_getD_zero (l : List α) (d : α) : l.headD d = l.getD 0 d := by
  cases l <;> rfl

theorem length_normalize (recs : List Rcd) :
    (readGrid (some (writeGrid recs))).length = recs.length := by
  rw [readGrid_writeGrid]
  simp

theorem normalize_getD_zero_keys (recs : List Rcd) (h : recs ≠ []) :
    ((readGrid (some (writeGrid recs))).getD 0 []).map Prod.fst =
      (recs.headD []).map Prod.fst := by
  rw [readGrid_writeGrid]
  rw [getD_map_of_lt _ _ 0 _ [] (List.length_pos.mpr h)]
  exact keys_zip_map _ _

theorem roll_ne_of_p_false (r : Rcd) (roll : String)
    (hkey : "roll" ∈ r.map Prod.fst)
    (hp : (recGet r "roll" == some roll) = false) :
    recGetD r "roll" ≠ roll := by
  obtain ⟨v, hv⟩ := recGet_eq_some_of_mem_keys r "roll" hkey
  rw [hv] at hp
  have hvne : v ≠ roll := by simpa using hp
  rw [recGetD, hv]
  simpa using hvne

/-- Re-locating a roll in a sheet that has just been written back: if the
written records carry a `roll` column, the match is found at the same index
as in memory. -/
theorem findIdxO_roll_normalize (d1 : List Rcd) (roll : String) (i : Nat)
    (hi : i < d1.length)
    (hC : "roll" ∈ (d1.headD []).map Prod.fst)
    (hmatch : recGetD (d1.getD i []) "roll" = roll)
    (hbefore : ∀ j < i, recGetD (d1.getD j []) "roll" ≠ roll) :
    findIdxO (fun r => recGet r "roll" == some roll)
      (readGrid (some (writeGrid d1))) = some i := by
  apply findIdxO_intro _ _ i []
  · rw [length_normalize]
    exact hi
  · rw [recGet_normalize d1 i "roll" hi, if_pos hC, hmatch]
    simp
  · intro j hj
    rw [recGet_normalize d1 j "roll" (by omega), if_pos hC]
    have := hbefore j hj
    simpa using this

/-- Re-marking the same date on a freshly written sheet writes back the very
same grid: either the date column survived the write (the mark is an
overwrite with the same value), or it was dropped by the column inference
(row 0 lacked it) and is dropped identically again. -/
theorem writeGrid_markAt_normalize (d1 : List Rcd) (i : Nat) (date : String)
    (hi : i < d1.length)
    (hpresent : recGetD (d1.getD i []) date = "Present")
    (hzero : date ∉ (d1.headD []).map Prod.fst → i ≠ 0) :
    writeGrid (markAt (readGrid (some (writeGrid d1))) i date) = writeGrid d1 := by
  have hne : d1 ≠ [] := by
    intro h
    rw [h] at hi
    simp at hi
  have hlen2 : (readGrid (some (writeGrid d1))).length = d1.length := length_normalize d1
  by_cases hdC : date ∈ (d1.headD []).map Prod.fst
  · have hget : recGet ((readGrid (some (writeGrid d1))).getD i []) date = some "Present" := by
      rw [recGet_normalize d1 i date hi, if_pos hdC, hpresent]
    have heq : markAt (readGrid (some (writeGrid d1))) i date =
        readGrid (some (writeGrid d1)) :=
      markAt_eq_self _ _ _ (recSet_eq_self _ _ _ hget)
    rw [heq]
    exact writeGrid_readGrid_writeGrid d1
  · have hi0 : i ≠ 0 := hzero hdC
    have hkeys2 : ((readGrid (some (writeGrid d1))).getD 0 []).map Prod.fst =
        (d1.headD []).map Prod.fst := normalize_getD_zero_keys d1 hne
    have hhead : (markAt (readGrid (some (writeGrid d1))) i date).headD [] =
        (readGrid (some (writeGrid d1))).headD [] := by
      rw [headD_eq_getD_zero, headD_eq_getD_zero]
      exact markAt_getD_of_ne _ _ _ _ (Ne.symm hi0)
    have hstep : writeGrid (markAt (readGrid (some (writeGrid d1))) i date) =
        writeGrid (readGrid (some (writeGrid d1))) := by
      apply writeGrid_congr
      · exact markAt_length _ _ _
      · rw [hhead]
      · intro j hj c hc
        rw [markAt_length] at hj
        have hckeys : c ∈ ((readGrid (some (writeGrid d1))).getD 0 []).map Prod.fst := by
          rw [← headD_eq_getD_zero]
          rw [← hhead]
          exact hc
        have hcC : c ∈ (d1.headD []).map Prod.fst := by
          rw [← hkeys2]
          exact hckeys
        have hcdate : c ≠ date := by
          intro hcd
          rw [hcd] at hcC
          exact hdC hcC
        by_cases hji : j = i
        · subst hji
          rw [markAt_getD_self _ _ _ (by omega)]
          exact recGetD_recSet_ne _ _ _ _ hcdate
        · rw [markAt_getD_of_ne _ _ _ _ hji]
    rw [hstep]
    exact writeGrid_readGrid_writeGrid d1

/-- Marking the same (roll, date) pair twice on a well-formed sheet writes
back the identical grid and yields the identical error status, provided the
marked date is not the literal column name "roll". -/
theorem markSheet_idem (g : Grid) (roster : List Rcd) (roll date : String)
    (hdate : date ≠ "roll") (hwf : GridWF g "roll") :
    markSheet (markSheet g roster roll date).1 roster roll date =
      markSheet g roster roll date := by
  obtain ⟨hrect, hroll⟩ := hwf
  have hlenrg : (readGrid (some g)).length = g.rows.length := length_readGrid g
  cases hfi : findIdxO (fun r => recGet r "roll" == some roll) (readGrid (some g)) with
  | some i =>
      have hms := markSheet_found g roster roll date i hfi
      rw [hms]
      dsimp only
      have hil : i < (readGrid (some g)).length := findIdxO_lt_length _ _ _ hfi
      have hgrows : g.rows ≠ [] := by
        intro hnil
        rw [hnil] at hlenrg
        simp only [List.length_nil] at hlenrg
        omega
      have hrollcols : "roll" ∈ g.cols := hroll.resolve_left hgrows
      have hkeysj : ∀ j, j < (readGrid (some g)).length →
          ((readGrid (some g)).getD j []).map Prod.fst = g.cols := by
        intro j hj
        exact keys_readGrid_rect g hrect j (by omega)
      have hd1l : (markAt (readGrid (some g)) i date).length = (readGrid (some g)).length :=
        markAt_length _ _ _
      have hvals : ∀ j, j < (markAt (readGrid (some g)) i date).length →
          recGetD ((markAt (readGrid (some g)) i date).getD j []) "roll" =
            recGetD ((readGrid (some g)).getD j []) "roll" := by
        intro j hj
        by_cases hji : j = i
        · subst hji
          rw [markAt_getD_self _ _ _ (by omega)]
          exact recGetD_recSet_ne _ _ _ _ (Ne.symm hdate)
        · rw [markAt_getD_of_ne _ _ _ _ hji]
      have hCroll : "roll" ∈ ((markAt (readGrid (some g)) i date).headD []).map Prod.fst := by
        rw [headD_eq_getD_zero]
        by_cases h0 : i = 0
        · subst h0
          rw [markAt_getD_self _ _ _ hil]
          apply mem_keys_recSet_of_mem
          rw [hkeysj 0 hil]
          exact hrollcols
        · rw [markAt_getD_of_ne _ _ _ _ (Ne.symm h0)]
          rw [hkeysj 0 (by omega)]
          exact hrollcols
      have hmatch : recGetD ((markAt (readGrid (some g)) i date).getD i []) "roll" = roll := by
        rw [hvals i (by omega)]
        have hp := findIdxO_getD _ _ i [] hfi
        have hsome : recGet ((readGrid (some g)).getD i []) "roll" = some roll := by
          simpa using hp
        rw [recGetD, hsome]
        rfl
      have hbefore : ∀ j < i,
          recGetD ((markAt (readGrid (some g)) i date).getD j []) "roll" ≠ roll := by
        intro j hj
        rw [hvals j (by omega)]
        apply roll_ne_of_p_false
        · rw [hkeysj j (by omega)]
          exact hrollcols
        · exact findIdxO_earlier _ _ _ [] hfi j hj
      have hf2 := findIdxO_roll_normalize (markAt (readGrid (some g)) i date) roll i
        (by omega) hCroll hmatch hbefore
      have hms2 := markSheet_found (writeGrid (markAt (readGrid (some g)) i date))
        roster roll date i hf2
      rw [hms2]
      have hpresent : recGetD ((markAt (readGrid (some g)) i date).getD i []) date =
          "Present" := by
        rw [markAt_getD_self _ _ _ hil]
        exact recGetD_recSet_self _ _ _
      have hzero : date ∉ ((markAt (readGrid (some g)) i date).headD []).map Prod.fst →
          i ≠ 0 := by
        intro hnC h0
        apply hnC
        subst h0
        rw [headD_eq_getD_zero, markAt_getD_self _ _ _ hil]
        exact mem_keys_recSet_self _ _ _
      rw [writeGrid_markAt_normalize (markAt (readGrid (some g)) i date) i date
        (by omega) hpresent hzero]
  | none =>
      cases hfo : findO (fun s => recGet s "roll" == some roll) roster with
      | some student =>
          have hms := markSheet_append g roster roll date student hfi hfo
          rw [hms]
          dsimp only
          have hstroll : recGetD student "roll" = roll := by
            have hst := (findO_some _ _ _ hfo).2
            have hsome : recGet student "roll" = some roll := by simpa using hst
            rw [recGetD, hsome]
            rfl
          set nr := recSet [("name", recGetD student "name"),
            ("roll", recGetD student "roll")] date "Present" with hNR
          have hnr_roll : recGet nr "roll" = some roll := by
            rw [hNR, recGet_recSet_ne _ _ _ _ (Ne.symm hdate)]
            simp [recGet, hstroll]
          have hnr_date : recGetD nr date = "Present" := by
            rw [hNR]
            exact recGetD_recSet_self _ _ _
          have hnr_datekey : date ∈ nr.map Prod.fst := by
            rw [hNR]
            exact mem_keys_recSet_self _ _ _
          have hnr_rollkey : "roll" ∈ nr.map Prod.fst := by
            rw [hNR]
            apply mem_keys_recSet_of_mem
            show "roll" ∈ ["name", "roll"]
            simp
          have hgetlast : (readGrid (some g) ++ [nr]).getD (readGrid (some g)).length [] =
              nr := by
            rw [getD_append_length]
            rfl
          have hCroll : "roll" ∈ ((readGrid (some g) ++ [nr]).headD []).map Prod.fst := by
            by_cases hD : readGrid (some g) = []
            · rw [hD]
              exact hnr_rollkey
            · have hgrows : g.rows ≠ [] := by
                intro hnil
                apply hD
                show g.rows.map (fun row => g.cols.zip row) = []
                rw [hnil]
                rfl
              rw [headD_eq_getD_zero,
                getD_append_left _ _ 0 _ (List.length_pos.mpr hD)]
              rw [show ((readGrid (some g)).getD 0 []) =
                  ((readGrid (some g)).getD 0 []) from rfl]
              have := keys_readGrid_rect g hrect 0 (by
                rw [← hlenrg]
                exact List.length_pos.mpr hD)
              rw [this]
              exact hroll.resolve_left hgrows
          have hmatch : recGetD ((readGrid (some g) ++ [nr]).getD
              (readGrid (some g)).length []) "roll" = roll := by
            rw [hgetlast, recGetD, hnr_roll]
            rfl
          have hbefore : ∀ j < (readGrid (some g)).length,
              recGetD ((readGrid (some g) ++ [nr]).getD j []) "roll" ≠ roll := by
            intro j hj
            rw [getD_append_left _ _ j _ hj]
            have hgrows : g.rows ≠ [] := by
              intro hnil
              rw [hnil] at hlenrg
              simp only [List.length_nil] at hlenrg
              omega
            apply roll_ne_of_p_false
            · rw [keys_readGrid_rect g hrect j (by omega)]
              exact hroll.resolve_left hgrows
            · exact (findIdxO_eq_none_iff _ _).mp hfi _ (getD_mem_of_lt _ _ _ hj)
          have hf2 := findIdxO_roll_normalize (readGrid (some g) ++ [nr]) roll
            (readGrid (some g)).length (by simp) hCroll hmatch hbefore
          have hms2 := markSheet_found (writeGrid (readGrid (some g) ++ [nr]))
            roster roll date (readGrid (some g)).length hf2
          rw [hms2]
          have hpresent : recGetD ((readGrid (some g) ++ [nr]).getD
              (readGrid (some g)).length []) date = "Present" := by
            rw [hgetlast]
            exact hnr_date
          have hzero : date ∉ ((readGrid (some g) ++ [nr]).headD []).map Prod.fst →
              (readGrid (some g)).length ≠ 0 := by
            intro hnC h0
            apply hnC
            have hD : readGrid (some g) = [] := List.length_eq_zero.mp h0
            rw [hD]
            exact hnr_datekey
          rw [writeGrid_markAt_normalize (readGrid (some g) ++ [nr])
            (readGrid (some g)).length date (by simp) hpresent hzero]
      | none =>
          have hms := markSheet_err g roster roll date hfi hfo
          rw [hms]
          exact hms

theorem seed_wf (roster : List Rcd) : GridWF (getOrCreateGrid none roster) "roll" := by
  constructor
  · exact writeGrid_rect _
  · cases roster with
    | nil => left; rfl
    | cons s rest =>
        right
        rw [show getOrCreateGrid none (s :: rest) =
          writeGrid ((s :: rest).map
            (fun s => [("name", recGetD s "name"), ("roll", recGetD s "roll")])) from rfl]
        rw [cols_writeGrid]
        show "roll" ∈ ["name", "roll"]
        simp

/-- **C2** (amended): for every subject and roll, every date other than the
literal string "roll", and every state whose sheet file for the subject —
when it exists — is well-formed (rectangular data rows and a `roll` header
column whenever it has rows), calling MarkPresent twice with identical
arguments reproduces the state and result of the first call exactly; in
particular the persisted sheet is byte-for-byte identical after the second
call's rewrite. -/
theorem c2_mark_idempotent (fs : FS) (subject roll date : String)
    (hdate : date ≠ "roll")
    (hwf : ∀ g, dirGet fs.attDir (sheetFileName subject) = some g → GridWF g "roll") :
    updateStudentAttendance (updateStudentAttendance fs subject roll date).1 subject roll date =
      updateStudentAttendance fs subject roll date := by
  have hwfg : GridWF (getOrCreateGrid (dirGet fs.attDir (sheetFileName subject))
      (readGrid fs.studentsFile)) "roll" := by
    cases hd : dirGet fs.attDir (sheetFileName subject) with
    | some g => exact hwf g hd
    | none => exact seed_wf _
  have hidem := markSheet_idem (getOrCreateGrid (dirGet fs.attDir (sheetFileName subject))
      (readGrid fs.studentsFile)) (readGrid fs.studentsFile) roll date hdate hwfg
  cases hmk : markSheet (getOrCreateGrid (dirGet fs.attDir (sheetFileName subject))
      (readGrid fs.studentsFile)) (readGrid fs.studentsFile) roll date with
  | mk g' e =>
      cases e with
      | none =>
          have hu1 := update_ok fs subject roll date g' hmk
          rw [hu1]
          dsimp only
          set fs1 := getOrCreateAttendanceFile fs subject with hfs1
          have hdirX : dirGet ({ fs1 with
              attDir := dirSet fs1.attDir (sheetFileName subject) g' } : FS).attDir
              (sheetFileName subject) = some g' :=
            dirGet_dirSet_self _ _ _
          have hmk2 : markSheet
              (getOrCreateGrid
                (dirGet ({ fs1 with
                  attDir := dirSet fs1.attDir (sheetFileName subject) g' } : FS).attDir
                  (sheetFileName subject))
                (readGrid ({ fs1 with
                  attDir := dirSet fs1.attDir (sheetFileName subject) g' } : FS).studentsFile))
              (readGrid ({ fs1 with
                attDir := dirSet fs1.attDir (sheetFileName subject) g' } : FS).studentsFile)
              roll date = (g', none) := by
            rw [hdirX]
            show markSheet g' (readGrid fs1.studentsFile) roll date = (g', none)
            rw [hfs1, getOrCreate_studentsFile]
            have h2 := hidem
            rw [hmk] at h2
            exact h2
          have hu2 := update_ok ({ fs1 with
            attDir := dirSet fs1.attDir (sheetFileName subject) g' } : FS)
            subject roll date g' hmk2
          rw [hu2]
          rw [getOrCreate_of_some _ subject g' hdirX]
          have hds : dirSet ({ fs1 with
              attDir := dirSet fs1.attDir (sheetFileName subject) g' } : FS).attDir
              (sheetFileName subject) g' = dirSet fs1.attDir (sheetFileName subject) g' :=
            dirSet_dirSet _ _ _ _
          rw [hds]
      | some e =>
          have hu1 := update_err fs subject roll date g' e hmk
          rw [hu1]
          dsimp only
          set fs1 := getOrCreateAttendanceFile fs subject with hfs1
          have hdir : dirGet fs1.attDir (sheetFileName subject) =
              some (getOrCreateGrid (dirGet fs.attDir (sheetFileName subject))
                (readGrid fs.studentsFile)) := by
            rw [hfs1]
            exact dirGet_getOrCreate fs subject
          have hmk2 : markSheet
              (getOrCreateGrid (dirGet fs1.attDir (sheetFileName subject))
                (readGrid fs1.studentsFile))
              (readGrid fs1.studentsFile) roll date = (g', some e) := by
            rw [hdir]
            rw [hfs1, getOrCreate_studentsFile]
            exact hmk
          have hu2 := update_err fs1 subject roll date g' e hmk2
          rw [hu2]
          rw [getOrCreate_of_some fs1 subject _ hdir]

def fsC2 : FS :=
  ⟨some ⟨["name", "roll", "descriptors"], [["Ann", "5", "d0"]]⟩, none,
    [("Math_attendance.csv", ⟨["name", "roll"], [["Ann", "5"]]⟩)]⟩

theorem c2_witness :
    updateStudentAttendance (updateStudentAttendance fsC2 "Math" "5" "2024-01-10").1
        "Math" "5" "2024-01-10" =
      updateStudentAttendance fsC2 "Math" "5" "2024-01-10" := by
  apply c2_mark_idempotent fsC2 "Math" "5" "2024-01-10" (by decide)
  intro g hg
  have hd : dirGet fsC2.attDir (sheetFileName "Math") =
      some (⟨["name", "roll"], [["Ann", "5"]]⟩ : Grid) := by decide
  rw [hd] at hg
  injection hg with hg
  subst hg
  decide

/-- C2 counterexample: with the date argument the literal string "roll",
marking the same (subject, roll, date) twice from a clean reachable state
(one registered student, no sheet yet) appends a duplicate row on the second
call: the persisted sheet after the second call differs from the sheet after
the first, so the claim's unrestricted quantification over dates is false. -/
theorem c2_counterexample :
    updateStudentAttendance (updateStudentAttendance
        ⟨some ⟨["name", "roll", "descriptors"], [["Ann", "5", "d0"]]⟩, none, []⟩
        "Math" "5" "roll").1 "Math" "5" "roll" ≠
      updateStudentAttendance
        ⟨some ⟨["name", "roll", "descriptors"], [["Ann", "5", "d0"]]⟩, none, []⟩
        "Math" "5" "roll" := by
  decide

/-! ### Claim C6 -/

theorem filter_roll_ne (l : List Rcd) (roll : String) :
    ∀ r ∈ l.filter (fun r => !(recGet r "roll" == some roll)),
      recGet r "roll" ≠ some roll := by
  intro r hr
  have h := (List.mem_filter.mp hr).2
  simpa using h

/-- Rewriting a record list none of whose rows matches a (nonempty) roll
leaves a file none of whose read-back rows matches it either. -/
theorem clean_normalize (recs : List Rcd) (roll : String) (hroll : roll ≠ "")
    (h : ∀ r ∈ recs, recGet r "roll" ≠ some roll) :
    ∀ r ∈ readGrid (some (writeGrid recs)), recGet r "roll" ≠ some roll := by
  intro r hr
  rw [readGrid_writeGrid] at hr
  obtain ⟨orig, horig, rfl⟩ := List.mem_map.mp hr
  rw [recGet_zip_map]
  by_cases hC : "roll" ∈ (recs.headD []).map Prod.fst
  · rw [if_pos hC]
    intro hcon
    injection hcon with hcon
    cases hv : recGet orig "roll" with
    | none =>
        simp only [recGetD, hv, Option.getD_none] at hcon
        exact hroll hcon.symm
    | some v =>
        simp only [recGetD, hv, Option.getD_some] at hcon
        apply h orig horig
        rw [hv, hcon]
  · rw [if_neg hC]
    simp

theorem deleteFromSheet_attDir_other (fs : FS) (subjName roll f : String)
    (h : f ≠ sheetFileName subjName) :
    dirGet (deleteFromSheet fs subjName roll).attDir f = dirGet fs.attDir f := by
  cases hd : dirGet fs.attDir (sheetFileName subjName) with
  | none => simp only [deleteFromSheet, hd]
  | some g =>
      simp only [deleteFromSheet, hd]
      exact dirGet_dirSet_ne _ _ _ _ h

theorem deleteFromSheet_studentsFile (fs : FS) (subjName roll : String) :
    (deleteFromSheet fs subjName roll).studentsFile = fs.studentsFile := by
  cases hd : dirGet fs.attDir (sheetFileName subjName) <;>
    simp only [deleteFromSheet, hd]

theorem deleteFromSheet_clean_self (fs : FS) (subjName roll : String) (hroll : roll ≠ "") :
    ∀ r ∈ readGrid (dirGet (deleteFromSheet fs subjName roll).attDir
        (sheetFileName subjName)),
      recGet r "roll" ≠ some roll := by
  cases hd : dirGet fs.attDir (sheetFileName subjName) with
  | none =>
      simp only [deleteFromSheet, hd]
      intro r hr
      simp [readGrid] at hr
  | some g =>
      simp only [deleteFromSheet, hd]
      rw [dirGet_dirSet_self]
      exact clean_normalize _ roll hroll (filter_roll_ne _ roll)

theorem deleteFromSheet_clean_pres (fs : FS) (subjName roll f : String) (hroll : roll ≠ "")
    (h : ∀ r ∈ readGrid (dirGet fs.attDir f), recGet r "roll" ≠ some roll) :
    ∀ r ∈ readGrid (dirGet (deleteFromSheet fs subjName roll).attDir f),
      recGet r "roll" ≠ some roll := by
  by_cases hf : f = sheetFileName subjName
  · subst hf
    exact deleteFromSheet_clean_self fs subjName roll hroll
  · rw [deleteFromSheet_attDir_other fs subjName roll f hf]
    exact h

theorem cascade_clean_pres (roll : String) (hroll : roll ≠ "") (subjects : List Rcd)
    (f : String) :
    ∀ fs : FS,
      (∀ r ∈ readGrid (dirGet fs.attDir f), recGet r "roll" ≠ some roll) →
      ∀ r ∈ readGrid (dirGet (subjects.foldl (fun acc s =>
          deleteFromSheet acc (jsStr (recGet s "subject")) roll) fs).attDir f),
        recGet r "roll" ≠ some roll := by
  induction subjects with
  | nil =>
      intro fs h
      simpa using h
  | cons s0 rest ih =>
      intro fs h
      rw [List.foldl_cons]
      exact ih _ (deleteFromSheet_clean_pres fs _ roll f hroll h)

theorem cascade_clean (roll : String) (hroll : roll ≠ "") (subjects : List Rcd) :
    ∀ fs : FS, ∀ s ∈ subjects,
      ∀ r ∈ readGrid (dirGet (subjects.foldl (fun acc s =>
          deleteFromSheet acc (jsStr (recGet s "subject")) roll) fs).attDir
          (sheetFileName (jsStr (recGet s "subject")))),
        recGet r "roll" ≠ some roll := by
  induction subjects with
  | nil =>
      intro fs s hs
      simp at hs
  | cons s0 rest ih =>
      intro fs s hs
      rw [List.foldl_cons]
      rcases List.mem_cons.mp hs with rfl | hs'
      · exact cascade_clean_pres roll hroll rest _ _
          (deleteFromSheet_clean_self fs _ roll hroll)
      · exact ih _ s hs'

theorem cascade_studentsFile (roll : String) (subjects : List Rcd) :
    ∀ fs : FS,
      (subjects.foldl (fun acc s =>
        deleteFromSheet acc (jsStr (recGet s "subject")) roll) fs).studentsFile =
      fs.studentsFile := by
  induction subjects with
  | nil => intro fs; rfl
  | cons s0 rest ih =>
      intro fs
      rw [List.foldl_cons, ih, deleteFromSheet_studentsFile]

theorem deleteStudent_unfold (fs : FS) (roll : String) :
    deleteStudent fs roll =
      ((readGrid fs.subjectsFile).foldl
        (fun acc s => deleteFromSheet acc (jsStr (recGet s "subject")) roll)
        ({ fs with studentsFile := some (writeGrid ((readGrid fs.studentsFile).filter
          (fun s => !(recGet s "roll" == some roll)))) } : FS), 200) := rfl

/-- **C6** (amended): `Delete(roll)` (nonempty roll) removes the matching
record from the roster (no-op if absent) and removes any row with that roll
from the sheet of every subject **listed in the Subject Registry file**;
sheets on disk for subjects not in the registry are not touched.  Hence a
subsequent QueryByDate for any registered subject and any date returns no
entry carrying that roll. -/
theorem c6_delete_cascade (fs : FS) (roll : String) (hroll : roll ≠ "") :
    (∀ s ∈ readGrid (deleteStudent fs roll).1.studentsFile, recGet s "roll" ≠ some roll) ∧
    (∀ subj ∈ readGrid fs.subjectsFile,
      ∀ r ∈ readGrid (dirGet (deleteStudent fs roll).1.attDir
          (sheetFileName (jsStr (recGet subj "subject")))),
        recGet r "roll" ≠ some roll) ∧
    (∀ subj ∈ readGrid fs.subjectsFile, ∀ date : String,
      ∀ e ∈ getAttendance (deleteStudent fs roll).1 (jsStr (recGet subj "subject")) date,
        e.roll ≠ some roll) := by
  rw [deleteStudent_unfold]
  dsimp only
  refine ⟨?_, ?_, ?_⟩
  · intro s hs
    rw [cascade_studentsFile] at hs
    exact clean_normalize _ roll hroll (filter_roll_ne _ roll) s hs
  · intro subj hsubj
    exact cascade_clean roll hroll (readGrid fs.subjectsFile) _ subj hsubj
  · intro subj hsubj date e he
    rw [mem_getAttendance] at he
    obtain ⟨g, hg, r, hr, hp, rfl⟩ := he
    show recGet r "roll" ≠ some roll
    apply cascade_clean roll hroll (readGrid fs.subjectsFile) _ subj hsubj r
    rw [hg]
    exact hr

def fsC6 : FS :=
  ⟨some ⟨["name", "roll", "descriptors"], [["Ann", "5", "d0"], ["Bob", "7", "d1"]]⟩,
    some ⟨["subject"], [["Math"]]⟩,
    [("Math_attendance.csv",
      ⟨["name", "roll", "2024-01-10"], [["Ann", "5", "Present"], ["Bob", "7", "Present"]]⟩)]⟩

theorem c6_witness :
    (∀ s ∈ readGrid (deleteStudent fsC6 "5").1.studentsFile, recGet s "roll" ≠ some "5") ∧
    (∀ e ∈ getAttendance (deleteStudent fsC6 "5").1 "Math" "2024-01-10",
      e.roll ≠ some "5") := by
  have h := c6_delete_cascade fsC6 "5" (by decide)
  refine ⟨h.1, ?_⟩
  intro e he
  exact h.2.2 [("subject", "Math")] (by decide) "2024-01-10" e he

/-- C6 counterexample: at a concrete state whose registry file is absent but
whose attendance directory holds a "Math" sheet marking roll "5" present,
`Delete("5")` clears the roster but leaves the sheet untouched, and the
subsequent QueryByDate still returns the deleted student's entry — refuting
"removes any row with that roll from every existing subject sheet". -/
theorem c6_counterexample :
    getAttendance (deleteStudent
        ⟨some ⟨["name", "roll", "descriptors"], [["Ann", "5", "d0"]]⟩, none,
          [("Math_attendance.csv",
            ⟨["name", "roll", "2024-01-10"], [["Ann", "5", "Present"]]⟩)]⟩ "5").1
      "Math" "2024-01-10" =
      [⟨some "Ann", some "5", "2024-01-10", "00:00:00", "Math"⟩] := by
  decide

/-! ### Claim C7 -/

theorem mem_subjStep_of_mem (acc : List Rcd) (file : String) (r : Rcd) (hr : r ∈ acc) :
    r ∈ subjStep acc file := by
  simp only [subjStep]
  split
  · split
    · exact hr
    · exact List.mem_append.mpr (Or.inl hr)
  · exact hr

theorem mem_foldl_subjStep_of_mem (files : List String) :
    ∀ acc r, r ∈ acc → r ∈ files.foldl subjStep acc := by
  induction files with
  | nil =>
      intro acc r hr
      simpa using hr
  | cons f rest ih =>
      intro acc r hr
      rw [List.foldl_cons]
      exact ih _ r (mem_subjStep_of_mem acc f r hr)

theorem subjStep_provides (acc : List Rcd) (file : String)
    (he : strEndsWith file "_attendance.csv" = true) :
    ∃ r ∈ subjStep acc file, recGet r "subject" = some (inferSubject file) := by
  simp only [subjStep]
  rw [if_pos he]
  by_cases ha : acc.any (fun s => recGet s "subject" == some (inferSubject file)) = true
  · rw [if_pos ha]
    obtain ⟨r, hr, hp⟩ := List.any_eq_true.mp ha
    exact ⟨r, hr, by simpa using hp⟩
  · rw [if_neg ha]
    refine ⟨[("subject", inferSubject file)], by simp, ?_⟩
    simp [recGet]

theorem foldl_subjStep_provides (files : List String) :
    ∀ acc, ∀ file ∈ files, strEndsWith file "_attendance.csv" = true →
      ∃ r ∈ files.foldl subjStep acc, recGet r "subject" = some (inferSubject file) := by
  induction files with
  | nil =>
      intro acc file hf
      simp at hf
  | cons f0 rest ih =>
      intro acc file hf he
      rw [List.foldl_cons]
      rcases List.mem_cons.mp hf with rfl | hf'
      · obtain ⟨r, hr, hp⟩ := subjStep_provides acc file he
        exact ⟨r, mem_foldl_subjStep_of_mem rest _ r hr, hp⟩
      · exact ih _ file hf' he

theorem mem_subjStep (acc : List Rcd) (file : String) (r : Rcd) (hr : r ∈ subjStep acc file) :
    r ∈ acc ∨ (strEndsWith file "_attendance.csv" = true ∧
      r = [("subject", inferSubject file)]) := by
  simp only [subjStep] at hr
  split at hr
  · rename_i he
    split at hr
    · exact Or.inl hr
    · rcases List.mem_append.mp hr with h | h
      · exact Or.inl h
      · have : r = [("subject", inferSubject file)] := by simpa using h
        exact Or.inr ⟨he, this⟩
  · exact Or.inl hr

theorem foldl_subjStep_sub (files : List String) :
    ∀ acc, ∀ r ∈ files.foldl subjStep acc,
      r ∈ acc ∨ ∃ file ∈ files, strEndsWith file "_attendance.csv" = true ∧
        r = [("subject", inferSubject file)] := by
  induction files with
  | nil =>
      intro acc r hr
      exact Or.inl (by simpa using hr)
  | cons f0 rest ih =>
      intro acc r hr
      rw [List.foldl_cons] at hr
      rcases ih _ r hr with h | ⟨file, hf, he, heq⟩
      · rcases mem_subjStep acc f0 r h with h' | ⟨he, heq⟩
        · exact Or.inl h'
        · exact Or.inr ⟨f0, by simp, he, heq⟩
      · exact Or.inr ⟨file, by simp [hf], he, heq⟩

theorem key_mem_of_mem_readGrid (g : Grid) (k : String) (hwf : GridWF g k)
    (r : Rcd) (hr : r ∈ readGrid (some g)) : k ∈ r.map Prod.fst := by
  obtain ⟨row, hrow, rfl⟩ := List.mem_map.mp hr
  rw [List.map_fst_zip _ _ (le_of_eq (hwf.1 row hrow).symm)]
  refine hwf.2.resolve_left ?_
  intro h
  rw [h] at hrow
  simp at hrow

theorem listSubjects_unfold (fs : FS) :
    listSubjects fs =
      ({ fs with subjectsFile := some (writeGrid ((fs.attDir.map Prod.fst).foldl subjStep
          (readGrid fs.subjectsFile))) },
        (fs.attDir.map Prod.fst).foldl subjStep (readGrid fs.subjectsFile)) := rfl

/-- **C7** (amended): Subject `List()` returns every registry record plus,
for every `_attendance.csv` file found in the attendance directory, a record
whose subject is the name inferred by deleting the **first occurrence** of
`_attendance.csv` from the filename (JS `String.replace` with a string
pattern) — and nothing else; the consolidated list is persisted back to the
registry file, so after one call the registry contains, for every sheet file
on disk, its inferred subject.  (The inferred name equals the sheet's
subject except when the subject name itself contains `_attendance.csv`.) -/
theorem c7_list_subjects (fs : FS)
    (hwreg : ∀ g, fs.subjectsFile = some g → GridWF g "subject") :
    (∀ r ∈ readGrid fs.subjectsFile, r ∈ (listSubjects fs).2) ∧
    (∀ file ∈ fs.attDir.map Prod.fst, strEndsWith file "_attendance.csv" = true →
      ∃ r ∈ (listSubjects fs).2, recGet r "subject" = some (inferSubject file)) ∧
    (∀ r ∈ (listSubjects fs).2, r ∈ readGrid fs.subjectsFile ∨
      ∃ file ∈ fs.attDir.map Prod.fst, strEndsWith file "_attendance.csv" = true ∧
        r = [("subject", inferSubject file)]) ∧
    ((listSubjects fs).1.subjectsFile = some (writeGrid (listSubjects fs).2)) ∧
    (∀ file ∈ fs.attDir.map Prod.fst, strEndsWith file "_attendance.csv" = true →
      ∃ r ∈ readGrid (listSubjects fs).1.subjectsFile,
        recGet r "subject" = some (inferSubject file)) := by
  rw [listSubjects_unfold]
  dsimp only
  refine ⟨?_, ?_, ?_, rfl, ?_⟩
  · intro r hr
    exact mem_foldl_subjStep_of_mem _ _ r hr
  · intro file hf he
    exact foldl_subjStep_provides _ _ file hf he
  · intro r hr
    exact foldl_subjStep_sub _ _ r hr
  · intro file hf he
    obtain ⟨r, hr, hs⟩ := foldl_subjStep_provides (fs.attDir.map Prod.fst)
      (readGrid fs.subjectsFile) file hf he
    have hne : (fs.attDir.map Prod.fst).foldl subjStep (readGrid fs.subjectsFile) ≠ [] :=
      List.ne_nil_of_mem hr
    have hC : "subject" ∈ (((fs.attDir.map Prod.fst).foldl subjStep
        (readGrid fs.subjectsFile)).headD []).map Prod.fst := by
      have hheadmem : ((fs.attDir.map Prod.fst).foldl subjStep
          (readGrid fs.subjectsFile)).headD [] ∈
          (fs.attDir.map Prod.fst).foldl subjStep (readGrid fs.subjectsFile) := by
        rw [headD_eq_getD_zero]
        exact getD_mem_of_lt _ _ _ (List.length_pos.mpr hne)
      rcases foldl_subjStep_sub _ _ _ hheadmem with hreg | ⟨file', _, _, heq⟩
      · cases hsub : fs.subjectsFile with
        | none =>
            rw [hsub] at hreg
            simp [readGrid] at hreg
        | some g =>
            rw [hsub] at hreg
            exact key_mem_of_mem_readGrid g "subject" (hwreg g hsub) _ hreg
      · rw [heq]
        simp
    refine ⟨(((fs.attDir.map Prod.fst).foldl subjStep
        (readGrid fs.subjectsFile)).headD []).map Prod.fst |>.zip
        (((((fs.attDir.map Prod.fst).foldl subjStep
          (readGrid fs.subjectsFile)).headD []).map Prod.fst).map
          (fun c => recGetD r c)), ?_, ?_⟩
    · rw [readGrid_writeGrid]
      exact List.mem_map_of_mem _ hr
    · rw [recGet_zip_map, if_pos hC]
      rw [recGetD, hs]
      rfl

def fsC7 : FS := ⟨none, none, [("Math_attendance.csv", ⟨[], []⟩)]⟩

theorem c7_witness :
    ∃ r ∈ readGrid (listSubjects fsC7).1.subjectsFile,
      recGet r "subject" = some (inferSubject "Math_attendance.csv") := by
  have h := c7_list_subjects fsC7 (by intro g hg; exact Option.noConfusion hg)
  exact h.2.2.2.2 "Math_attendance.csv" (by decide) (by decide)

/-- C7 counterexample: the subject "x_attendance.csvy" has a sheet on disk
(its file is named by appending `_attendance.csv`), yet after one `List()`
call the persisted registry does not contain it: the filename-to-subject
inference removes the **first** occurrence of `_attendance.csv`, yielding
"xy_attendance.csv" instead, so the claim's "after one List() the registry
contains every subject that has a sheet on disk" is false. -/
theorem c7_counterexample :
    (dirGet (⟨none, none, [("x_attendance.csvy_attendance.csv", ⟨[], []⟩)]⟩ : FS).attDir
      (sheetFileName "x_attendance.csvy")).isSome = true ∧
    ∀ r ∈ readGrid (listSubjects
        (⟨none, none, [("x_attendance.csvy_attendance.csv", ⟨[], []⟩)]⟩ : FS)).1.subjectsFile,
      ¬ recGet r "subject" = some "x_attendance.csvy" := by
  constructor
  · decide
  · decide

/-! ### Claim C5: record- and list-level lemmas -/

theorem mem_keys_of_recGet_eq_some (r : Rcd) (k v : String) (h : recGet r k = some v) :
    k ∈ r.map Prod.fst := by
  induction r with
  | nil => simp [recGet] at h
  | cons p rest ih =>
      obtain ⟨a, b⟩ := p
      by_cases hp : a = k
      · simp [hp]
      · simp only [recGet, if_neg hp] at h
        simp only [List.map_cons, List.mem_cons]
        exact Or.inr (ih h)

theorem rollsOf_markAt (l : List Rcd) (i : Nat) (date : String) (hdate : date ≠ "roll") :
    rollsOf (markAt l i date) = rollsOf l := by
  induction l generalizing i with
  | nil => rfl
  | cons r rest ih =>
      cases i with
      | zero =>
          show recGetD (recSet r date "Present") "roll" :: rollsOf rest =
            recGetD r "roll" :: rollsOf rest
          rw [recGetD_recSet_ne _ _ _ _ (Ne.symm hdate)]
      | succ i0 =>
          show recGetD r "roll" :: rollsOf (markAt rest i0 date) =
            recGetD r "roll" :: rollsOf rest
          rw [ih i0]

theorem roll_not_mem_rollsOf (l : List Rcd) (roll : String) (hroll : roll ≠ "")
    (h : ∀ r ∈ l, recGet r "roll" ≠ some roll) :
    roll ∉ rollsOf l := by
  intro hmem
  obtain ⟨r, hr, heq⟩ := List.mem_map.mp hmem
  cases hv : recGet r "roll" with
  | none =>
      simp only [recGetD, hv, Option.getD_none] at heq
      exact hroll heq.symm
  | some v =>
      simp only [recGetD, hv, Option.getD_some] at heq
      exact h r hr (by rw [hv, heq])

theorem nodup_append_singleton (l : List α) (x : α) (h : l.Nodup) (hx : x ∉ l) :
    (l ++ [x]).Nodup := by
  rw [List.nodup_append]
  refine ⟨h, List.nodup_singleton x, ?_⟩
  intro a ha hax
  rw [List.mem_singleton] at hax
  subst hax
  exact hx ha

theorem uniq_normalize (recs : List Rcd)
    (hC : "roll" ∈ (recs.headD []).map Prod.fst ∨ recs = [])
    (h : UniqRolls recs) : UniqRolls (readGrid (some (writeGrid recs))) := by
  show (rollsOf (readGrid (some (writeGrid recs)))).Nodup
  rw [rollsOf_normalize recs hC]
  exact h

theorem wf_writeGrid (recs : List Rcd)
    (hC : "roll" ∈ (recs.headD []).map Prod.fst ∨ recs = []) :
    GridWF (writeGrid recs) "roll" := by
  constructor
  · exact writeGrid_rect recs
  · rcases hC with hC | rfl
    · right
      rw [cols_writeGrid]
      exact hC
    · left
      rfl

theorem roll_mem_head_keys (g : Grid) (hwf : GridWF g "roll")
    (hne : readGrid (some g) ≠ []) :
    "roll" ∈ ((readGrid (some g)).headD []).map Prod.fst := by
  rw [headD_eq_getD_zero]
  have hlen : 0 < (readGrid (some g)).length := List.length_pos.mpr hne
  rw [keys_readGrid_rect g hwf.1 0 (by rw [← length_readGrid g]; exact hlen)]
  refine hwf.2.resolve_left ?_
  intro h
  apply hne
  show g.rows.map _ = []
  rw [h]
  rfl

theorem rollsOf_seed (roster : List Rcd) :
    rollsOf (roster.map
        (fun s => [("name", recGetD s "name"), ("roll", recGetD s "roll")])) =
      rollsOf roster := by
  apply map_map_congr
  intro s _
  show recGetD [("name", recGetD s "name"), ("roll", recGetD s "roll")] "roll" =
    recGetD s "roll"
  simp [recGetD, recGet]

theorem seeded_grid_ok (roster : List Rcd) (hu : UniqRolls roster) :
    GridWF (getOrCreateGrid none roster) "roll" ∧
    UniqRolls (readGrid (some (getOrCreateGrid none roster))) := by
  refine ⟨seed_wf roster, ?_⟩
  show UniqRolls (readGrid (some (writeGrid (roster.map
    (fun s => [("name", recGetD s "name"), ("roll", recGetD s "roll")])))))
  rw [seed_readback]
  show (rollsOf (roster.map _)).Nodup
  rw [rollsOf_seed]
  exact hu

theorem dirGet_mem (d : AttDir) (f : String) (g : Grid) (h : dirGet d f = some g) :
    (f, g) ∈ d := by
  induction d with
  | nil => simp [dirGet] at h
  | cons p rest ih =>
      obtain ⟨a, b⟩ := p
      by_cases hp : a = f
      · simp only [dirGet, hp, if_pos rfl] at h
        injection h with h
        subst hp
        subst h
        simp
      · simp only [dirGet, if_neg hp] at h
        exact List.mem_cons.mpr (Or.inr (ih h))

theorem rollsOf_set_eq (l : List Rcd) (i : Nat) (r : Rcd)
    (h : recGetD r "roll" = recGetD (l.getD i []) "roll") :
    rollsOf (l.set i r) = rollsOf l := by
  induction l generalizing i with
  | nil => rfl
  | cons x xs ih =>
      cases i with
      | zero =>
          show recGetD r "roll" :: rollsOf xs = recGetD x "roll" :: rollsOf xs
          rw [show (x :: xs).getD 0 [] = x from rfl] at h
          rw [h]
      | succ i0 =>
          show recGetD x "roll" :: rollsOf (xs.set i0 r) =
            recGetD x "roll" :: rollsOf xs
          rw [ih i0 (by simpa using h)]

theorem headD_set_zero (l : List α) (x d : α) (hne : l ≠ []) :
    (l.set 0 x).headD d = x := by
  cases l with
  | nil => exact absurd rfl hne
  | cons a rest => rfl

theorem headD_set_succ (l : List α) (i : Nat) (x d : α) :
    (l.set (i + 1) x).headD d = l.headD d := by
  cases l <;> rfl

theorem rollsOf_getD (l : List Rcd) (i : Nat) (h : i < l.length) :
    (rollsOf l).getD i "" = recGetD (l.getD i []) "roll" := by
  exact getD_map_of_lt _ _ i _ [] h

/-! ### Claim C5: operation-level preservation lemmas -/

theorem rollsOf_append_one (l : List Rcd) (r : Rcd) :
    rollsOf (l ++ [r]) = rollsOf l ++ [recGetD r "roll"] := by
  show (l ++ [r]).map (fun r => recGetD r "roll") =
    l.map (fun r => recGetD r "roll") ++ [recGetD r "roll"]
  rw [List.map_append]
  rfl

theorem markAt_head_roll_key (g : Grid) (i : Nat) (date : String)
    (hwf : GridWF g "roll")
    (hil : i < (readGrid (some g)).length) :
    "roll" ∈ ((markAt (readGrid (some g)) i date).headD []).map Prod.fst := by
  have hne : readGrid (some g) ≠ [] := by
    intro h
    rw [h] at hil
    simp at hil
  rw [headD_eq_getD_zero]
  by_cases h0 : i = 0
  · subst h0
    rw [markAt_getD_self _ _ _ hil]
    apply mem_keys_recSet_of_mem
    rw [← headD_eq_getD_zero]
    exact roll_mem_head_keys g hwf hne
  · rw [markAt_getD_of_ne _ _ _ _ (Ne.symm h0)]
    rw [← headD_eq_getD_zero]
    exact roll_mem_head_keys g hwf hne

theorem append_head_roll_key (g : Grid) (nr : Rcd)
    (hwf : GridWF g "roll")
    (hnr : "roll" ∈ nr.map Prod.fst) :
    "roll" ∈ ((readGrid (some g) ++ [nr]).headD []).map Prod.fst := by
  by_cases hD : readGrid (some g) = []
  · rw [hD]
    exact hnr
  · rw [headD_eq_getD_zero, getD_append_left _ _ 0 _ (List.length_pos.mpr hD),
      ← headD_eq_getD_zero]
    exact roll_mem_head_keys g hwf hD

theorem roster_head_roll_key (fs : FS)
    (hros : ∀ g, fs.studentsFile = some g → GridWF g "roll")
    (hne : readGrid fs.studentsFile ≠ []) :
    "roll" ∈ ((readGrid fs.studentsFile).headD []).map Prod.fst := by
  cases hs : fs.studentsFile with
  | none =>
      rw [hs] at hne
      simp [readGrid] at hne
  | some g =>
      rw [hs] at hne
      exact roll_mem_head_keys g (hros g hs) hne

theorem markSheet_sheetOK (g : Grid) (roster : List Rcd) (roll date : String)
    (hroll : roll ≠ "") (hdate : date ≠ "roll")
    (hwf : GridWF g "roll") (hu : UniqRolls (readGrid (some g))) :
    GridWF (markSheet g roster roll date).1 "roll" ∧
    UniqRolls (readGrid (some (markSheet g roster roll date).1)) := by
  cases hfi : findIdxO (fun r => recGet r "roll" == some roll) (readGrid (some g)) with
  | some i =>
      rw [markSheet_found g roster roll date i hfi]
      dsimp only
      have hil := findIdxO_lt_length _ _ _ hfi
      have hC := markAt_head_roll_key g i date hwf hil
      constructor
      · exact wf_writeGrid _ (Or.inl hC)
      · apply uniq_normalize _ (Or.inl hC)
        show (rollsOf (markAt (readGrid (some g)) i date)).Nodup
        rw [rollsOf_markAt _ _ _ hdate]
        exact hu
  | none =>
      cases hfo : findO (fun s => recGet s "roll" == some roll) roster with
      | some student =>
          rw [markSheet_append g roster roll date student hfi hfo]
          dsimp only
          have hstroll : recGetD student "roll" = roll := by
            have hst := (findO_some _ _ _ hfo).2
            have hsome : recGet student "roll" = some roll := by simpa using hst
            rw [recGetD, hsome]
            rfl
          have hnr_roll : recGet (recSet [("name", recGetD student "name"),
              ("roll", recGetD student "roll")] date "Present") "roll" = some roll := by
            rw [recGet_recSet_ne _ _ _ _ (Ne.symm hdate)]
            simp [recGet, hstroll]
          have hnrkey := mem_keys_of_recGet_eq_some _ _ _ hnr_roll
          have hC := append_head_roll_key g _ hwf hnrkey
          have habs := (findIdxO_roll_none_iff _ _).mp hfi
          have hnotmem := roll_not_mem_rollsOf _ roll hroll habs
          constructor
          · exact wf_writeGrid _ (Or.inl hC)
          · apply uniq_normalize _ (Or.inl hC)
            show (rollsOf (readGrid (some g) ++ [recSet [("name", recGetD student "name"),
              ("roll", recGetD student "roll")] date "Present"])).Nodup
            rw [rollsOf_append_one]
            rw [show recGetD (recSet [("name", recGetD student "name"),
              ("roll", recGetD student "roll")] date "Present") "roll" = roll from by
                rw [recGetD, hnr_roll]
                rfl]
            exact nodup_append_singleton _ _ hu hnotmem
      | none =>
          rw [markSheet_err g roster roll date hfi hfo]
          exact ⟨hwf, hu⟩

theorem getOrCreate_sheetsOK (fs : FS) (subject : String)
    (hrosu : UniqRolls (readGrid fs.studentsFile))
    (hsh : ∀ p ∈ fs.attDir, GridWF p.2 "roll" ∧ UniqRolls (readGrid (some p.2))) :
    ∀ p ∈ (getOrCreateAttendanceFile fs subject).attDir,
      GridWF p.2 "roll" ∧ UniqRolls (readGrid (some p.2)) := by
  cases hd : dirGet fs.attDir (sheetFileName subject) with
  | some g =>
      rw [getOrCreate_of_some fs subject g hd]
      exact hsh
  | none =>
      rw [getOrCreate_of_none fs subject hd]
      intro p hp
      rcases mem_dirSet _ _ _ p hp with rfl | hp'
      · exact seeded_grid_ok (readGrid fs.studentsFile) hrosu
      · exact hsh p hp'

theorem getOrCreateGrid_ok (fs : FS) (subject : String)
    (hrosu : UniqRolls (readGrid fs.studentsFile))
    (hsh : ∀ p ∈ fs.attDir, GridWF p.2 "roll" ∧ UniqRolls (readGrid (some p.2))) :
    GridWF (getOrCreateGrid (dirGet fs.attDir (sheetFileName subject))
      (readGrid fs.studentsFile)) "roll" ∧
    UniqRolls (readGrid (some (getOrCreateGrid (dirGet fs.attDir (sheetFileName subject))
      (readGrid fs.studentsFile)))) := by
  cases hd : dirGet fs.attDir (sheetFileName subject) with
  | some g => exact hsh (sheetFileName subject, g) (dirGet_mem _ _ _ hd)
  | none => exact seeded_grid_ok _ hrosu

theorem update_frames (fs : FS) (subject roll date : String) :
    (updateStudentAttendance fs subject roll date).1.studentsFile = fs.studentsFile ∧
    (updateStudentAttendance fs subject roll date).1.subjectsFile = fs.subjectsFile := by
  cases hmk : markSheet (getOrCreateGrid (dirGet fs.attDir (sheetFileName subject))
      (readGrid fs.studentsFile)) (readGrid fs.studentsFile) roll date with
  | mk g' e =>
      cases e with
      | none =>
          rw [update_ok fs subject roll date g' hmk]
          exact ⟨getOrCreate_studentsFile fs subject, getOrCreate_subjectsFile fs subject⟩
      | some e =>
          rw [update_err fs subject roll date g' e hmk]
          exact ⟨getOrCreate_studentsFile fs subject, getOrCreate_subjectsFile fs subject⟩

theorem update_sheetsOK (fs : FS) (subject roll date : String)
    (hroll : roll ≠ "") (hdate : date ≠ "roll")
    (hrosu : UniqRolls (readGrid fs.studentsFile))
    (hsh : ∀ p ∈ fs.attDir, GridWF p.2 "roll" ∧ UniqRolls (readGrid (some p.2))) :
    ∀ p ∈ (updateStudentAttendance fs subject roll date).1.attDir,
      GridWF p.2 "roll" ∧ UniqRolls (readGrid (some p.2)) := by
  have hg0 := getOrCreateGrid_ok fs subject hrosu hsh
  cases hmk : markSheet (getOrCreateGrid (dirGet fs.attDir (sheetFileName subject))
      (readGrid fs.studentsFile)) (readGrid fs.studentsFile) roll date with
  | mk g' e =>
      cases e with
      | none =>
          rw [update_ok fs subject roll date g' hmk]
          intro p hp
          rcases mem_dirSet _ _ _ p hp with rfl | hp'
          · have hms := markSheet_sheetOK (getOrCreateGrid
              (dirGet fs.attDir (sheetFileName subject)) (readGrid fs.studentsFile))
              (readGrid fs.studentsFile) roll date hroll hdate hg0.1 hg0.2
            rw [hmk] at hms
            exact hms
          · exact getOrCreate_sheetsOK fs subject hrosu hsh p hp'
      | some e =>
          rw [update_err fs subject roll date g' e hmk]
          exact getOrCreate_sheetsOK fs subject hrosu hsh

theorem fanOutStep_OK (fs : FS) (subjName name roll : String) (hroll : roll ≠ "")
    (hrosu : UniqRolls (readGrid fs.studentsFile))
    (hsh : ∀ p ∈ fs.attDir, GridWF p.2 "roll" ∧ UniqRolls (readGrid (some p.2))) :
    (∀ p ∈ (fanOutStep fs subjName name roll).attDir,
      GridWF p.2 "roll" ∧ UniqRolls (readGrid (some p.2))) ∧
    (fanOutStep fs subjName name roll).studentsFile = fs.studentsFile ∧
    (fanOutStep fs subjName name roll).subjectsFile = fs.subjectsFile := by
  have hg0 := getOrCreateGrid_ok fs subjName hrosu hsh
  have hshx := getOrCreate_sheetsOK fs subjName hrosu hsh
  simp only [fanOutStep, dirGet_getOrCreate]
  by_cases hany : (readGrid (some (getOrCreateGrid
      (dirGet fs.attDir (sheetFileName subjName)) (readGrid fs.studentsFile)))).any
      (fun r => recGet r "roll" == some roll) = true
  · rw [if_pos hany]
    exact ⟨hshx, getOrCreate_studentsFile fs subjName, getOrCreate_subjectsFile fs subjName⟩
  · rw [if_neg hany]
    refine ⟨?_, getOrCreate_studentsFile fs subjName, getOrCreate_subjectsFile fs subjName⟩
    intro p hp
    rcases mem_dirSet _ _ _ p hp with rfl | hp'
    · have habs : ∀ r ∈ readGrid (some (getOrCreateGrid
          (dirGet fs.attDir (sheetFileName subjName)) (readGrid fs.studentsFile))),
          recGet r "roll" ≠ some roll := by
        intro r hr hcon
        apply hany
        rw [List.any_eq_true]
        exact ⟨r, hr, by simp [hcon]⟩
      have hnr_roll : recGet [("name", name), ("roll", roll)] "roll" = some roll := by
        simp [recGet]
      have hC := append_head_roll_key _ _ hg0.1 (mem_keys_of_recGet_eq_some _ _ _ hnr_roll)
      constructor
      · exact wf_writeGrid _ (Or.inl hC)
      · apply uniq_normalize _ (Or.inl hC)
        show (rollsOf (readGrid (some (getOrCreateGrid
          (dirGet fs.attDir (sheetFileName subjName)) (readGrid fs.studentsFile))) ++
          [[("name", name), ("roll", roll)]])).Nodup
        rw [rollsOf_append_one]
        rw [show recGetD [("name", name), ("roll", roll)] "roll" = roll from by
          rw [recGetD, hnr_roll]
          rfl]
        exact nodup_append_singleton _ _ hg0.2 (roll_not_mem_rollsOf _ roll hroll habs)
    · exact hshx p hp'

theorem fanOut_fold_OK (name roll : String) (hroll : roll ≠ "") (subjects : List Rcd) :
    ∀ fs : FS,
      UniqRolls (readGrid fs.studentsFile) →
      (∀ p ∈ fs.attDir, GridWF p.2 "roll" ∧ UniqRolls (readGrid (some p.2))) →
      (∀ p ∈ (subjects.foldl (fun acc s =>
          fanOutStep acc (jsStr (recGet s "subject")) name roll) fs).attDir,
        GridWF p.2 "roll" ∧ UniqRolls (readGrid (some p.2))) ∧
      (subjects.foldl (fun acc s =>
        fanOutStep acc (jsStr (recGet s "subject")) name roll) fs).studentsFile =
        fs.studentsFile := by
  induction subjects with
  | nil =>
      intro fs hu hsh
      exact ⟨by simpa using hsh, rfl⟩
  | cons s0 rest ih =>
      intro fs hu hsh
      rw [List.foldl_cons]
      have hstep := fanOutStep_OK fs (jsStr (recGet s0 "subject")) name roll hroll hu hsh
      have hu' : UniqRolls (readGrid
          (fanOutStep fs (jsStr (recGet s0 "subject")) name roll).studentsFile) := by
        rw [hstep.2.1]
        exact hu
      obtain ⟨h1, h2⟩ := ih _ hu' hstep.1
      exact ⟨h1, by rw [h2, hstep.2.1]⟩

/-- **C5** (amended): starting from a state whose roster and sheets are
well-formed and carry pairwise-distinct roll values, Upsert (both branches,
fan-out included) leaves every sheet's rolls pairwise distinct and the
roster with exactly one record for the upserted (nonempty) roll, and
MarkPresent with a date other than the literal "roll" preserves roll
uniqueness of the roster and of every sheet. -/
theorem c5_uniqueness_invariant (fs : FS) (name roll descriptors subject date : String)
    (hroll : roll ≠ "") (hdate : date ≠ "roll")
    (hros : ∀ g, fs.studentsFile = some g → GridWF g "roll")
    (hrosu : UniqRolls (readGrid fs.studentsFile))
    (hsh : ∀ p ∈ fs.attDir, GridWF p.2 "roll" ∧ UniqRolls (readGrid (some p.2))) :
    (UniqRolls (readGrid (postStudents fs name roll descriptors).1.studentsFile) ∧
     (∀ p ∈ (postStudents fs name roll descriptors).1.attDir,
       UniqRolls (readGrid (some p.2))) ∧
     (¬ (name = "" ∨ roll = "" ∨ descriptors = "") →
       (rollsOf (readGrid (postStudents fs name roll descriptors).1.studentsFile)).count
         roll = 1)) ∧
    (UniqRolls (readGrid (updateStudentAttendance fs subject roll date).1.studentsFile) ∧
     ∀ p ∈ (updateStudentAttendance fs subject roll date).1.attDir,
       UniqRolls (readGrid (some p.2))) := by
  constructor
  · by_cases hval : name = "" ∨ roll = "" ∨ descriptors = ""
    · have hps : postStudents fs name roll descriptors = (fs, 400) := by
        unfold postStudents
        rw [if_pos hval]
      rw [hps]
      exact ⟨hrosu, fun p hp => (hsh p hp).2, fun hcon => absurd hval hcon⟩
    · cases hfi : findIdxO (fun s => recGet s "roll" == some roll)
          (readGrid fs.studentsFile) with
      | some i =>
          have hps : postStudents fs name roll descriptors =
              ({ fs with studentsFile := some (writeGrid ((readGrid fs.studentsFile).set i
                [("name", name), ("roll", roll), ("descriptors", descriptors)])) }, 201) := by
            unfold postStudents
            rw [if_neg hval]
            simp only [hfi]
          rw [hps]
          dsimp only
          have hil := findIdxO_lt_length _ _ _ hfi
          have hnewroll : recGetD [("name", name), ("roll", roll),
              ("descriptors", descriptors)] "roll" = roll := by
            simp [recGetD, recGet]
          have holdroll : recGetD ((readGrid fs.studentsFile).getD i []) "roll" = roll := by
            have hp := findIdxO_getD _ _ i [] hfi
            have hsome : recGet ((readGrid fs.studentsFile).getD i []) "roll" =
                some roll := by simpa using hp
            rw [recGetD, hsome]
            rfl
          have hrolls : rollsOf ((readGrid fs.studentsFile).set i
              [("name", name), ("roll", roll), ("descriptors", descriptors)]) =
              rollsOf (readGrid fs.studentsFile) :=
            rollsOf_set_eq _ i _ (by rw [hnewroll, holdroll])
          have hne : readGrid fs.studentsFile ≠ [] := by
            intro h
            rw [h] at hil
            simp at hil
          have hC : "roll" ∈ (((readGrid fs.studentsFile).set i
              [("name", name), ("roll", roll), ("descriptors", descriptors)]).headD
                []).map Prod.fst := by
            cases i with
            | zero =>
                rw [headD_set_zero _ _ _ hne]
                simp
            | succ i0 =>
                rw [headD_set_succ]
                exact roster_head_roll_key fs hros hne
          refine ⟨?_, fun p hp => (hsh p hp).2, ?_⟩
          · apply uniq_normalize _ (Or.inl hC)
            show (rollsOf ((readGrid fs.studentsFile).set i
              [("name", name), ("roll", roll), ("descriptors", descriptors)])).Nodup
            rw [hrolls]
            exact hrosu
          · intro _
            show (rollsOf (readGrid (some (writeGrid ((readGrid fs.studentsFile).set i
              [("name", name), ("roll", roll), ("descriptors", descriptors)]))))).count
                roll = 1
            rw [rollsOf_normalize _ (Or.inl hC), hrolls]
            apply List.count_eq_one_of_mem hrosu
            rw [← holdroll, ← rollsOf_getD _ i hil]
            exact getD_mem_of_lt _ _ _ (by simpa using hil)
      | none =>
          have hps : postStudents fs name roll descriptors =
              ({ (readGrid fs.subjectsFile).foldl (fun acc s =>
                  fanOutStep acc (jsStr (recGet s "subject")) name roll) fs with
                studentsFile := some (writeGrid ((readGrid fs.studentsFile) ++
                  [[("name", name), ("roll", roll), ("descriptors", descriptors)]])) },
                201) := by
            unfold postStudents
            rw [if_neg hval]
            simp only [hfi]
          rw [hps]
          dsimp only
          have hfold := fanOut_fold_OK name roll hroll (readGrid fs.subjectsFile) fs
            hrosu hsh
          have habs := (findIdxO_roll_none_iff _ _).mp hfi
          have hnotmem := roll_not_mem_rollsOf _ roll hroll habs
          have hnewroll : recGetD [("name", name), ("roll", roll),
              ("descriptors", descriptors)] "roll" = roll := by
            simp [recGetD, recGet]
          have happ : rollsOf ((readGrid fs.studentsFile) ++
              [[("name", name), ("roll", roll), ("descriptors", descriptors)]]) =
              rollsOf (readGrid fs.studentsFile) ++ [roll] := by
            rw [rollsOf_append_one, hnewroll]
          have hC : "roll" ∈ (((readGrid fs.studentsFile) ++
              [[("name", name), ("roll", roll), ("descriptors", descriptors)]]).headD
                []).map Prod.fst := by
            by_cases hD : readGrid fs.studentsFile = []
            · rw [hD]
              simp
            · rw [headD_eq_getD_zero,
                getD_append_left _ _ 0 _ (List.length_pos.mpr hD), ← headD_eq_getD_zero]
              exact roster_head_roll_key fs hros hD
          refine ⟨?_, fun p hp => (hfold.1 p hp).2, ?_⟩
          · apply uniq_normalize _ (Or.inl hC)
            show (rollsOf ((readGrid fs.studentsFile) ++
              [[("name", name), ("roll", roll), ("descriptors", descriptors)]])).Nodup
            rw [happ]
            exact nodup_append_singleton _ _ hrosu hnotmem
          · intro _
            show (rollsOf (readGrid (some (writeGrid ((readGrid fs.studentsFile) ++
              [[("name", name), ("roll", roll), ("descriptors", descriptors)]]))))).count
                roll = 1
            rw [rollsOf_normalize _ (Or.inl hC), happ]
            rw [List.count_append]
            rw [List.count_eq_zero_of_not_mem hnotmem]
            simp
  · constructor
    · rw [(update_frames fs subject roll date).1]
      exact hrosu
    · exact fun p hp => (update_sheetsOK fs subject roll date hroll hdate hrosu hsh p hp).2

def fsC5 : FS :=
  ⟨some ⟨["name", "roll", "descriptors"], [["Ann", "5", "d0"]]⟩,
    some ⟨["subject"], [["Math"]]⟩,
    [("Math_attendance.csv", ⟨["name", "roll"], [["Ann", "5"]]⟩)]⟩

theorem c5_witness :
    (rollsOf (readGrid (postStudents fsC5 "Bob" "7" "d1").1.studentsFile)).count "7" = 1 ∧
    UniqRolls (readGrid (postStudents fsC5 "Bob" "7" "d1").1.studentsFile) ∧
    ∀ p ∈ (updateStudentAttendance fsC5 "Math" "7" "2024-01-10").1.attDir,
      UniqRolls (readGrid (some p.2)) := by
  have hros : ∀ g, fsC5.studentsFile = some g → GridWF g "roll" := by
    intro g hg
    have hd : fsC5.studentsFile =
        some (⟨["name", "roll", "descriptors"], [["Ann", "5", "d0"]]⟩ : Grid) := rfl
    rw [hd] at hg
    injection hg with hg
    subst hg
    decide
  have h := c5_uniqueness_invariant fsC5 "Bob" "7" "d1" "Math" "2024-01-10"
    (by decide) (by decide) hros (by decide) (by decide)
  exact ⟨h.1.2.2 (by decide), h.1.1, h.2.2⟩

/-- C5 counterexample: from a state with pairwise-distinct rolls ("Present"
and "5"), MarkPresent with the date argument the literal string "roll"
overwrites the matched row's roll cell with "Present", leaving the persisted
sheet with two rows whose roll is "Present": uniqueness is not preserved by
every operation as the claim states. -/
theorem c5_counterexample :
    UniqRolls (readGrid (dirGet
      (⟨some ⟨["name", "roll", "descriptors"], [["Bob", "5", "d1"]]⟩, none,
        [("Math_attendance.csv",
          ⟨["name", "roll"], [["Ann", "Present"], ["Bob", "5"]]⟩)]⟩ : FS).attDir
      (sheetFileName "Math"))) ∧
    ¬ UniqRolls (readGrid (dirGet
      (updateStudentAttendance
        (⟨some ⟨["name", "roll", "descriptors"], [["Bob", "5", "d1"]]⟩, none,
          [("Math_attendance.csv",
            ⟨["name", "roll"], [["Ann", "Present"], ["Bob", "5"]]⟩)]⟩ : FS)
        "Math" "5" "roll").1.attDir
      (sheetFileName "Math"))) := by
  constructor
  · decide
  · decide

end App
